import Mathlib

/-!
inode-inspector: a shallow embedding of `inspect.c`.

The C program prints inode metadata of one file or of the entries of a
directory.  The definitions below follow `inspect.c` function by function.

Conventions of the embedding
* `mode_t`, `ino_t`, `nlink_t`, `uid_t`, `gid_t` are natural numbers;
  `off_t`, `time_t` and `int` are integers.
* a C string is a Lean `String`, one character standing for one byte.
* `printf` to `stdout` / `fprintf` to `stderr` append to the two text
  channels of a `World`.
* the file system and the time zone are an environment `Env` of oracles
  answering the calls the program makes (`opendir`/`readdir`, `stat`,
  `localtime`, `fopen` of the log file).
-/

namespace Inspect

/-! ## `<sys/stat.h>`: file-type and permission bits (Linux / POSIX values) -/

def S_IFMT : Nat := 0o170000
def S_IFSOCK : Nat := 0o140000
def S_IFLNK : Nat := 0o120000
def S_IFREG : Nat := 0o100000
def S_IFBLK : Nat := 0o060000
def S_IFDIR : Nat := 0o040000
def S_IFCHR : Nat := 0o020000
def S_IFIFO : Nat := 0o010000

def S_IRUSR : Nat := 0o400
def S_IWUSR : Nat := 0o200
def S_IXUSR : Nat := 0o100
def S_IRGRP : Nat := 0o040
def S_IWGRP : Nat := 0o020
def S_IXGRP : Nat := 0o010
def S_IROTH : Nat := 0o004
def S_IWOTH : Nat := 0o002
def S_IXOTH : Nat := 0o001

/-- The macro `S_ISDIR(m)`, that is `((m) & S_IFMT) == S_IFDIR`. -/
def S_ISDIR (m : Nat) : Bool := m &&& S_IFMT == S_IFDIR
/-- The macro `S_ISLNK(m)`. -/
def S_ISLNK (m : Nat) : Bool := m &&& S_IFMT == S_IFLNK
/-- The macro `S_ISREG(m)`. -/
def S_ISREG (m : Nat) : Bool := m &&& S_IFMT == S_IFREG
/-- The macro `S_ISCHR(m)`. -/
def S_ISCHR (m : Nat) : Bool := m &&& S_IFMT == S_IFCHR
/-- The macro `S_ISBLK(m)`. -/
def S_ISBLK (m : Nat) : Bool := m &&& S_IFMT == S_IFBLK
/-- The macro `S_ISFIFO(m)`. -/
def S_ISFIFO (m : Nat) : Bool := m &&& S_IFMT == S_IFIFO
/-- The macro `S_ISSOCK(m)`. -/
def S_ISSOCK (m : Nat) : Bool := m &&& S_IFMT == S_IFSOCK

/-! ## `format_permissions` (inspect.c, lines 151-168) -/

/-- The first `%c` argument of `format_permissions`: the chain of
conditionals over the type macros, in the order of the source. -/
def type_glyph (mode : Nat) : Char :=
  if S_ISDIR mode then 'd'
  else if S_ISLNK mode then 'l'
  else if S_ISREG mode then '-'
  else if S_ISCHR mode then 'c'
  else if S_ISBLK mode then 'b'
  else if S_ISFIFO mode then 'p'
  else if S_ISSOCK mode then 's'
  else '?'

/-- The C expression `mode & bit ? c : '-'`. -/
def perm_char (mode bit : Nat) (c : Char) : Char :=
  if mode &&& bit ≠ 0 then c else '-'

/-- The function `format_permissions`: ten `%c` conversions written into
`perms[11]`. -/
def format_permissions (mode : Nat) : String :=
  String.mk
    [ type_glyph mode,
      perm_char mode S_IRUSR 'r', perm_char mode S_IWUSR 'w',
      perm_char mode S_IXUSR 'x', perm_char mode S_IRGRP 'r',
      perm_char mode S_IWGRP 'w', perm_char mode S_IXGRP 'x',
      perm_char mode S_IROTH 'r', perm_char mode S_IWOTH 'w',
      perm_char mode S_IXOTH 'x' ]

/-- The `%s` argument of the `type` line of `print_inode_info_json` and of
`print_inode_info_text` (the same chain in both functions). -/
def type_label (mode : Nat) : String :=
  if S_ISDIR mode then "directory"
  else if S_ISREG mode then "regular file"
  else if S_ISLNK mode then "symbolic link"
  else if S_ISCHR mode then "character device"
  else if S_ISBLK mode then "block device"
  else if S_ISFIFO mode then "FIFO"
  else if S_ISSOCK mode then "socket"
  else "unknown"

/-- The seven type predicates, in the order the spec lists them. -/
def type_predicates (mode : Nat) : List Bool :=
  [S_ISDIR mode, S_ISREG mode, S_ISLNK mode, S_ISCHR mode, S_ISBLK mode,
   S_ISFIFO mode, S_ISSOCK mode]

/-- The letters of the nine permission positions, owner, group, other. -/
def perm_letters : List Char := ['r', 'w', 'x', 'r', 'w', 'x', 'r', 'w', 'x']

/-- The alphabet of a permission string. -/
def perm_alphabet : List Char :=
  ['d', 'l', '-', 'c', 'b', 'p', 's', '?', 'r', 'w', 'x']

/-! ## `printf` conversions -/

/-- The conversions `%lu` and `%u`: the decimal digits of an unsigned value. -/
def printf_lu (n : Nat) : String := Nat.repr n

/-- The conversions `%lld` and `%ld`: a signed decimal integer. -/
def printf_lld (n : Int) : String :=
  if n < 0 then "-" ++ Nat.repr n.natAbs else Nat.repr n.toNat

/-- The conversion `%02d`, as `strftime` applies it to a field of `struct tm`. -/
def printf_02d (n : Int) : String :=
  if 0 ≤ n ∧ n < 10 then "0" ++ printf_lld n else printf_lld n

/-- The number of binary digits of `n`, by halving at most `fuel` times. -/
def bit_length : Nat → Nat → Nat
  | 0, _ => 0
  | fuel + 1, n => if n = 0 then 0 else bit_length fuel (n / 2) + 1

/-- The value of `(double)n` for a non-negative integer `n`: `n` rounded to 53
significant bits, ties to even.  Every such double is itself an integer. -/
def to_double (n : Nat) : Nat :=
  if n < 2 ^ 53 then n
  else
    let sh := bit_length n n - 53
    let q := n / 2 ^ sh
    let r := n % 2 ^ sh
    if 2 * r > 2 ^ sh ∨ (2 * r = 2 ^ sh ∧ q % 2 = 1) then (q + 1) * 2 ^ sh else q * 2 ^ sh

/-- The number of hundredths `printf("%.2f", x)` prints for the double
`x = d / 2^k` (the division of a double by a power of two is exact): `100 x`
rounded to the nearest integer, ties to even. -/
def hundredths (d k : Nat) : Nat :=
  let q := 100 * d / 2 ^ k
  let r := 100 * d % 2 ^ k
  if 2 * r > 2 ^ k ∨ (2 * r = 2 ^ k ∧ q % 2 = 1) then q + 1 else q

/-- The text of a number of hundredths: integer part, `.`, two digits. -/
def two_decimals (h : Nat) : String :=
  Nat.repr (h / 100) ++ "." ++ Nat.repr (h / 10 % 10) ++ Nat.repr (h % 10)

/-- The conversion `%.2f` applied to the double `d / 2^k`. -/
def printf_2f (d k : Nat) : String := two_decimals (hundredths d k)

/-! ## `format_size` (inspect.c, lines 181-197) -/

/-- The function `format_size`; `size / 1073741824.0` converts `size` to
double and divides by `2^30`. -/
def format_size (size : Int) (human_readable : Int) : String :=
  if human_readable ≠ 0 then
    if size ≥ 1073741824 then printf_2f (to_double size.toNat) 30 ++ " GB"
    else if size ≥ 1048576 then printf_2f (to_double size.toNat) 20 ++ " MB"
    else if size ≥ 1024 then printf_2f (to_double size.toNat) 10 ++ " KB"
    else printf_lld size ++ " bytes"
  else printf_lld size

/-- The units of a human-readable size, smallest first. -/
inductive SizeUnit where
  | bytes
  | KB
  | MB
  | GB
  deriving DecidableEq, Repr

/-- The position of a unit in the order bytes < KB < MB < GB. -/
def SizeUnit.rank : SizeUnit → Nat
  | .bytes => 0
  | .KB => 1
  | .MB => 2
  | .GB => 3

/-- The unit a rendered size ends with, read off the text. -/
def unit_of (s : String) : Option SizeUnit :=
  match s.data.reverse with
  | 'B' :: 'G' :: ' ' :: _ => some .GB
  | 'B' :: 'M' :: ' ' :: _ => some .MB
  | 'B' :: 'K' :: ' ' :: _ => some .KB
  | 's' :: 'e' :: 't' :: 'y' :: 'b' :: ' ' :: _ => some .bytes
  | _ => none

/-- A text `s` shows the quotient `num / den` with two decimals: it is an
integer part, a point and two digits, and the number it denotes is within
half a hundredth of the quotient. -/
def ShowsTwoDecimals (s : String) (num den : Nat) : Prop :=
  ∃ h : Nat, s = Nat.repr (h / 100) ++ "." ++ Nat.repr (h / 10 % 10) ++ Nat.repr (h % 10) ∧
    h / 10 % 10 < 10 ∧ h % 10 < 10 ∧
    200 * num ≤ (2 * h + 1) * den ∧ 2 * h * den ≤ 200 * num + den

/-! ## `format_time` (inspect.c, lines 170-179) -/

/-- The fields of `struct tm` that the format string reads. -/
structure Tm where
  tm_year : Int
  tm_mon : Int
  tm_mday : Int
  tm_hour : Int
  tm_min : Int
  tm_sec : Int

/-- The call `strftime(buf, sizeof(buf), "%Y-%m-%d %H:%M:%S", tm)`. -/
def strftime_ymd_hms (tm : Tm) : String :=
  printf_lld (tm.tm_year + 1900) ++ "-" ++ printf_02d (tm.tm_mon + 1) ++ "-" ++
    printf_02d tm.tm_mday ++ " " ++ printf_02d tm.tm_hour ++ ":" ++ printf_02d tm.tm_min ++
    ":" ++ printf_02d tm.tm_sec

/-- The function `format_time`; `localtime` is the time-zone oracle of the
environment. -/
def format_time (localtime : Int → Tm) (time_val : Int) (human_readable : Int) : String :=
  if human_readable ≠ 0 then strftime_ymd_hms (localtime time_val)
  else printf_lld time_val

/-! ## The environment: `struct stat`, the file system, the two output channels -/

/-- The fields of `struct stat` that the program reads. -/
structure Stat where
  st_mode : Nat
  st_ino : Nat
  st_nlink : Nat
  st_uid : Nat
  st_gid : Nat
  st_size : Int
  st_atime : Int
  st_mtime : Int
  st_ctime : Int
  deriving DecidableEq

/-- The answers of the operating system to the calls the program makes.  An
error carries the text of `strerror(errno)`.  `lstat` is never called by the
program; it is here to say what a path is before symbolic links are followed. -/
structure Env where
  /-- The names `readdir` yields for a directory stream, in its order. -/
  opendir : String → Except String (List String)
  /-- The call `stat(path, &fileInfo)`: follows symbolic links. -/
  stat : String → Except String Stat
  /-- The call `lstat`: does not follow a final symbolic link. -/
  lstat : String → Except String Stat
  /-- The call `localtime`. -/
  localtime : Int → Tm
  /-- The call `fopen(log_file, "a")`. -/
  fopen_append : String → Except String Unit

/-- The text written so far to standard output and to standard error. -/
structure World where
  stdout : String
  stderr : String
  deriving DecidableEq, Repr

/-- How a call ends: it returns, or the process exits with a status, or the
recursion budget of the model ran out. -/
inductive Outcome where
  | returned (w : World)
  | exited (status : Int) (w : World)
  | out_of_fuel
  deriving DecidableEq, Repr

def EXIT_SUCCESS : Int := 0
def EXIT_FAILURE : Int := 1

/-- The statement `printf(...)`. -/
def World.printf (w : World) (text : String) : World :=
  { w with stdout := w.stdout ++ text }

/-- The statement `fprintf(stderr, ...)`. -/
def World.eprintf (w : World) (text : String) : World :=
  { w with stderr := w.stderr ++ text }

/-! ## `print_inode_info_json` (lines 199-223), `print_inode_info_text` (lines 225-245) -/

/-- The text `print_inode_info_json` writes to standard output. -/
def print_inode_info_json (localtime : Int → Tm) (file_path : String) (fileInfo : Stat)
    (human_readable : Int) : String :=
  "\x7b\n" ++
  "  \"filePath\": \"" ++ file_path ++ "\",\n" ++
  "  \"inode\": \x7b\n" ++
  "    \"number\": " ++ printf_lu (fileInfo.st_ino % 2 ^ 64) ++ ",\n" ++
  "    \"type\": \"" ++ type_label fileInfo.st_mode ++ "\",\n" ++
  "    \"permissions\": \"" ++ format_permissions fileInfo.st_mode ++ "\",\n" ++
  "    \"linkCount\": " ++ printf_lu (fileInfo.st_nlink % 2 ^ 64) ++ ",\n" ++
  "    \"uid\": " ++ printf_lu (fileInfo.st_uid % 2 ^ 32) ++ ",\n" ++
  "    \"gid\": " ++ printf_lu (fileInfo.st_gid % 2 ^ 32) ++ ",\n" ++
  "    \"size\": \"" ++ format_size fileInfo.st_size human_readable ++ "\",\n" ++
  "    \"accessTime\": \"" ++ format_time localtime fileInfo.st_atime human_readable ++ "\",\n" ++
  "    \"modificationTime\": \"" ++ format_time localtime fileInfo.st_mtime human_readable ++
    "\",\n" ++
  "    \"statusChangeTime\": \"" ++ format_time localtime fileInfo.st_ctime human_readable ++
    "\"\n" ++
  "  \x7d\n" ++
  "\x7d\n"

/-- The text `print_inode_info_text` writes to standard output. -/
def print_inode_info_text (localtime : Int → Tm) (file_path : String) (fileInfo : Stat)
    (human_readable : Int) : String :=
  "Information for " ++ file_path ++ ":\n" ++
  "File Inode: " ++ printf_lu (fileInfo.st_ino % 2 ^ 64) ++ "\n" ++
  "File Type: " ++ type_label fileInfo.st_mode ++ "\n" ++
  "Permissions: " ++ format_permissions fileInfo.st_mode ++ "\n" ++
  "Number of Hard Links: " ++ printf_lu (fileInfo.st_nlink % 2 ^ 64) ++ "\n" ++
  "Owner UID: " ++ printf_lu (fileInfo.st_uid % 2 ^ 32) ++ "\n" ++
  "Group GID: " ++ printf_lu (fileInfo.st_gid % 2 ^ 32) ++ "\n" ++
  "File Size: " ++ format_size fileInfo.st_size human_readable ++ "\n" ++
  "Last Access Time: " ++ format_time localtime fileInfo.st_atime human_readable ++ "\n" ++
  "Last Modification Time: " ++ format_time localtime fileInfo.st_mtime human_readable ++ "\n" ++
  "Last Status Change Time: " ++ format_time localtime fileInfo.st_ctime human_readable ++ "\n"

/-- The output unit of one entry: the branch on `json_output` that both
`main` and `process_directory` take before printing. -/
def print_inode_info (localtime : Int → Tm) (json_output : Int) (file_path : String)
    (fileInfo : Stat) (human_readable : Int) : String :=
  if json_output ≠ 0 then print_inode_info_json localtime file_path fileInfo human_readable
  else print_inode_info_text localtime file_path fileInfo human_readable

/-! ## `process_directory` (inspect.c, lines 118-149) -/

/-- The call `snprintf(path, sizeof(path), "%s/%s", directory_path, d_name)`
with `char path[1024]`: at most 1023 bytes are kept. -/
def child_path (directory_path d_name : String) : String :=
  String.mk ((directory_path ++ "/" ++ d_name).data.take 1023)

/-- The `while ((entry = readdir(dir)) != NULL)` loop of `process_directory`
over the names still to be read; `recurse` is the recursive call
`process_directory(path, ...)` with the same options. -/
def process_entries (env : Env) (recurse : String → World → Outcome)
    (directory_path : String) (json_output human_readable recursive : Int) :
    List String → World → Outcome
  | [], w => .returned w
  | d_name :: rest, w =>
    if d_name = "." ∨ d_name = ".." then
      process_entries env recurse directory_path json_output human_readable recursive rest w
    else
      let path := child_path directory_path d_name
      match env.stat path with
      | .error e =>
        process_entries env recurse directory_path json_output human_readable recursive rest
          (w.eprintf ("Error getting file info for " ++ path ++ ": " ++ e ++ "\n"))
      | .ok fileInfo =>
        let w1 := w.printf (print_inode_info env.localtime json_output path fileInfo human_readable)
        if recursive ≠ 0 ∧ S_ISDIR fileInfo.st_mode = true then
          match recurse path w1 with
          | .returned w2 =>
            process_entries env recurse directory_path json_output human_readable recursive
              rest w2
          | other => other
        else
          process_entries env recurse directory_path json_output human_readable recursive rest w1

/-- The function `process_directory`.  The `Nat` argument bounds the depth
of the recursion (the C function has no such bound); `closedir` has no effect
on the two output channels and is left out. -/
def process_directory (env : Env) (json_output human_readable recursive : Int) :
    Nat → String → World → Outcome
  | 0, _, _ => .out_of_fuel
  | fuel + 1, directory_path, w =>
    match env.opendir directory_path with
    | .error e =>
      .exited EXIT_FAILURE
        (w.eprintf ("Error: Unable to open directory " ++ directory_path ++ ": " ++ e ++ "\n"))
    | .ok entries =>
      process_entries env (process_directory env json_output human_readable recursive fuel)
        directory_path json_output human_readable recursive entries w

/-! ## `display_help`, `log_operation`, `main` (lines 19-116) -/

/-- The ten decimal digits. -/
def decimal_digits : List Char := ['0', '1', '2', '3', '4', '5', '6', '7', '8', '9']

/-- The number a string of decimal digits denotes. -/
def decimal_value (l : List Char) : Nat :=
  l.foldl (fun acc c => 10 * acc + (c.toNat - 48)) 0

/-- The text `s` is the unsigned decimal integer `n`: a non-empty string of
decimal digits that denotes `n`. -/
def IsUnsignedDecimal (s : String) (n : Nat) : Prop :=
  s.data ≠ [] ∧ (∀ c ∈ s.data, c ∈ decimal_digits) ∧ decimal_value s.data = n

/-- The characters of the values the program formats itself: digits, letters,
space, minus, point, colon and question mark. -/
def plain_chars : List Char :=
  decimal_digits ++
  ['a', 'b', 'c', 'd', 'e', 'f', 'g', 'h', 'i', 'j', 'k', 'l', 'm', 'n', 'o', 'p', 'q', 'r',
   's', 't', 'u', 'v', 'w', 'x', 'y', 'z',
   'A', 'B', 'C', 'D', 'E', 'F', 'G', 'H', 'I', 'J', 'K', 'L', 'M', 'N', 'O', 'P', 'Q', 'R',
   'S', 'T', 'U', 'V', 'W', 'X', 'Y', 'Z', ' ', '-', '.', ':', '?']

/-- A string that needs no escaping between double quotes: every character
is one of `plain_chars` (none is a quote, a backslash or a control character). -/
def IsPlain (s : String) : Prop := ∀ c ∈ s.data, c ∈ plain_chars

instance (s : String) : Decidable (IsPlain s) := by
  unfold IsPlain
  infer_instance

/-! ## Well-formed JSON text (RFC 8259) -/

/-- A JSON value; a number keeps its text. -/
inductive Json where
  | null
  | bool (b : Bool)
  | number (text : String)
  | string (s : String)
  | array (items : List Json)
  | object (members : List (String × Json))

/-- Skips JSON white space: space, tab, line feed, carriage return. -/
def skip_ws : List Char → List Char
  | [] => []
  | c :: rest => if c = ' ' ∨ c = '\t' ∨ c = '\n' ∨ c = '\r' then skip_ws rest else c :: rest

/-- The value of a hexadecimal digit. -/
def hex_value (c : Char) : Option Nat :=
  if '0' ≤ c ∧ c ≤ '9' then some (c.toNat - 48)
  else if 'a' ≤ c ∧ c ≤ 'f' then some (c.toNat - 87)
  else if 'A' ≤ c ∧ c ≤ 'F' then some (c.toNat - 55)
  else none

/-- The rest of a JSON string after its opening quote, up to and including the
closing quote: unescaped characters other than the quote, the backslash and
the control characters, and the escapes of the grammar.  `acc` holds the
characters read so far, last first. -/
def parse_string_body : List Char → List Char → Option (String × List Char)
  | [], _ => none
  | '"' :: rest, acc => some (String.mk acc.reverse, rest)
  | '\\' :: 'u' :: a :: b :: c :: d :: rest, acc =>
    match hex_value a, hex_value b, hex_value c, hex_value d with
    | some x, some y, some z, some w =>
      parse_string_body rest (Char.ofNat (((x * 16 + y) * 16 + z) * 16 + w) :: acc)
    | _, _, _, _ => none
  | '\\' :: e :: rest, acc =>
    if e = '"' then parse_string_body rest ('"' :: acc)
    else if e = '\\' then parse_string_body rest ('\\' :: acc)
    else if e = '/' then parse_string_body rest ('/' :: acc)
    else if e = 'b' then parse_string_body rest (Char.ofNat 8 :: acc)
    else if e = 'f' then parse_string_body rest (Char.ofNat 12 :: acc)
    else if e = 'n' then parse_string_body rest ('\n' :: acc)
    else if e = 'r' then parse_string_body rest ('\r' :: acc)
    else if e = 't' then parse_string_body rest ('\t' :: acc)
    else none
  | c :: rest, acc =>
    if c = '\\' ∨ c.toNat < 32 then none else parse_string_body rest (c :: acc)

/-- Splits off the longest prefix of decimal digits. -/
def take_digits : List Char → List Char × List Char
  | [] => ([], [])
  | c :: rest =>
    if c.isDigit then ((take_digits rest).1.cons c, (take_digits rest).2) else ([], c :: rest)

/-- A JSON number: optional minus, integer part without leading zero,
optional fraction, optional exponent. -/
def parse_number (cs : List Char) : Option (String × List Char) :=
  let (sign, r0) := match cs with
    | '-' :: r => (['-'], r)
    | r => ([], r)
  let (int, r1) := take_digits r0
  if int = [] ∨ (int.head? = some '0' ∧ int.length ≠ 1) then none
  else
    let fracPart : Option (List Char × List Char) := match r1 with
      | '.' :: r =>
        let (fd, r2) := take_digits r
        if fd = [] then none else some ('.' :: fd, r2)
      | r => some ([], r)
    match fracPart with
    | none => none
    | some (frac, r2) =>
      let expPart : Option (List Char × List Char) := match r2 with
        | e :: r =>
          if e = 'e' ∨ e = 'E' then
            let (sg, r3) := match r with
              | '+' :: r' => (['+'], r')
              | '-' :: r' => (['-'], r')
              | r' => ([], r')
            let (ed, r4) := take_digits r3
            if ed = [] then none else some (e :: (sg ++ ed), r4)
          else some ([], e :: r)
        | [] => some ([], [])
      match expPart with
      | none => none
      | some (ex, r5) => some (String.mk (sign ++ int ++ frac ++ ex), r5)

/-- The rest of an array after an element: `]`, or `,` and one more element.
`pv` reads one value. -/
def parse_elements (pv : List Char → Option (Json × List Char)) :
    Nat → List Char → List Json → Option (List Json × List Char)
  | 0, _, _ => none
  | n + 1, cs, acc =>
    match skip_ws cs with
    | ']' :: rest => some (acc.reverse, rest)
    | ',' :: rest =>
      match pv rest with
      | some (v, rest1) => parse_elements pv n rest1 (v :: acc)
      | none => none
    | _ => none

/-- One member of an object: a string, a colon and a value. -/
def parse_member (pv : List Char → Option (Json × List Char)) (cs : List Char) :
    Option ((String × Json) × List Char) :=
  match skip_ws cs with
  | '"' :: r1 =>
    match parse_string_body r1 [] with
    | some (key, r2) =>
      match skip_ws r2 with
      | ':' :: r3 =>
        match pv r3 with
        | some (v, r4) => some ((key, v), r4)
        | none => none
      | _ => none
    | none => none
  | _ => none

/-- The rest of an object after a member: the closing brace, or `,` and one
more member. -/
def parse_members (pv : List Char → Option (Json × List Char)) :
    Nat → List Char → List (String × Json) → Option (List (String × Json) × List Char)
  | 0, _, _ => none
  | n + 1, cs, acc =>
    match skip_ws cs with
    | '\x7d' :: rest => some (acc.reverse, rest)
    | ',' :: rest =>
      match parse_member pv rest with
      | some (m, rest1) => parse_members pv n rest1 (m :: acc)
      | none => none
    | _ => none

/-- One JSON value, after optional white space; the first argument bounds the
nesting depth and the number of elements of a container. -/
def parse_value : Nat → List Char → Option (Json × List Char)
  | 0, _ => none
  | n + 1, cs =>
    match skip_ws cs with
    | '\x7b' :: rest =>
      match skip_ws rest with
      | '\x7d' :: r => some (.object [], r)
      | _ =>
        match parse_member (parse_value n) rest with
        | some (m, r) =>
          match parse_members (parse_value n) n r [m] with
          | some (ms, r1) => some (.object ms, r1)
          | none => none
        | none => none
    | '[' :: rest =>
      match skip_ws rest with
      | ']' :: r => some (.array [], r)
      | _ =>
        match parse_value n rest with
        | some (v, r) =>
          match parse_elements (parse_value n) n r [v] with
          | some (vs, r1) => some (.array vs, r1)
          | none => none
        | none => none
    | '"' :: rest =>
      match parse_string_body rest [] with
      | some (str, r) => some (.string str, r)
      | none => none
    | 't' :: 'r' :: 'u' :: 'e' :: rest => some (.bool true, rest)
    | 'f' :: 'a' :: 'l' :: 's' :: 'e' :: rest => some (.bool false, rest)
    | 'n' :: 'u' :: 'l' :: 'l' :: rest => some (.null, rest)
    | c :: rest =>
      match parse_number (c :: rest) with
      | some (num, r) => some (.number num, r)
      | none => none
    | [] => none

/-- A whole JSON text: one value between optional white space, nothing else. -/
def json_parse (text : String) : Option Json :=
  match parse_value (text.length + 1) text.data with
  | some (v, rest) => if skip_ws rest = [] then some v else none
  | none => none

/-- The text is on its own one well-formed top-level JSON object. -/
def is_json_object (text : String) : Bool :=
  match json_parse text with
  | some (.object _) => true
  | _ => false

/-- The string value of the key `filePath` of a well-formed JSON object. -/
def json_filePath (text : String) : Option String :=
  match json_parse text with
  | some (.object members) =>
    match members.lookup "filePath" with
    | some (.string s) => some s
    | _ => none
  | _ => none

/-- The kind of a JSON value. -/
def Json.kind : Json → String
  | .null => "null"
  | .bool _ => "boolean"
  | .number _ => "number"
  | .string _ => "string"
  | .array _ => "array"
  | .object _ => "object"

/-- The keys of a JSON object in the order they stand, each with the kind
of its value. -/
def json_shape : Json → Option (List (String × String))
  | .object members => some (members.map (fun m => (m.1, m.2.kind)))
  | _ => none

/-- The value of the first member of a JSON object with the given key. -/
def json_member (key : String) : Json → Option Json
  | .object members => members.lookup key
  | _ => none

/-! ## Sample data -/

/-- A fixed time-zone oracle (UTC at the epoch), for examples in raw mode. -/
def sample_localtime : Int → Tm := fun _ => ⟨70, 0, 1, 0, 0, 0⟩

/-- The metadata of a regular file of 2048 bytes, mode 0644. -/
def sample_file_stat : Stat :=
  ⟨0o100644, 1311, 1, 1000, 1000, 2048, 1700000000, 1700000000, 1700000000⟩

/-- The metadata of a directory, mode 0755. -/
def sample_dir_stat : Stat :=
  ⟨0o040755, 1312, 2, 1000, 1000, 4096, 1700000000, 1700000000, 1700000000⟩

/-! ## Describing a traversal -/

/-- What a traversal meets in one directory, entry by entry in `readdir`
order (the last argument of each constructor is the rest of the directory):
the pseudo-entries `.` and `..`, a child whose `stat` fails, a child that is
rendered and not entered, a child directory that is rendered and entered. -/
inductive Listing where
  | nil
  | dot (d_name : String) (rest : Listing)
  | unreadable (d_name : String) (err : String) (rest : Listing)
  | leaf (d_name : String) (fileInfo : Stat) (rest : Listing)
  | dir (d_name : String) (fileInfo : Stat) (children : Listing) (rest : Listing)

/-- The names `readdir` yields for a listing. -/
def Listing.names : Listing → List String
  | .nil => []
  | .dot n rest => n :: rest.names
  | .unreadable n _ rest => n :: rest.names
  | .leaf n _ rest => n :: rest.names
  | .dir n _ _ rest => n :: rest.names

/-- The number of directory levels below a listing. -/
def Listing.depth : Listing → Nat
  | .nil => 0
  | .dot _ rest => rest.depth
  | .unreadable _ _ rest => rest.depth
  | .leaf _ _ rest => rest.depth
  | .dir _ _ children rest => max (children.depth + 1) rest.depth

/-- The path of a child, untruncated: `directory_path + "/" + d_name`. -/
def join_path (directory_path d_name : String) : String :=
  directory_path ++ "/" ++ d_name

/-- The listing `l` is what the environment shows below `path`, child paths
being formed by `join`: the dot entries are `.` or `..`; an unreadable child
is one whose `stat` fails; a leaf is a child whose `stat` succeeds and which a
traversal with this `recursive` flag does not enter; a `dir` is a child
directory, entered when `recursive` is set, whose own entries are `children`. -/
def Listing.Describes (env : Env) (join : String → String → String) (recursive : Int) :
    String → Listing → Prop
  | _, .nil => True
  | path, .dot n rest => (n = "." ∨ n = "..") ∧ Describes env join recursive path rest
  | path, .unreadable n e rest =>
    ¬ (n = "." ∨ n = "..") ∧ env.stat (join path n) = .error e ∧
      Describes env join recursive path rest
  | path, .leaf n st rest =>
    ¬ (n = "." ∨ n = "..") ∧ env.stat (join path n) = .ok st ∧
      ¬ (recursive ≠ 0 ∧ S_ISDIR st.st_mode = true) ∧ Describes env join recursive path rest
  | path, .dir n st children rest =>
    ¬ (n = "." ∨ n = "..") ∧ env.stat (join path n) = .ok st ∧
      recursive ≠ 0 ∧ S_ISDIR st.st_mode = true ∧
      env.opendir (join path n) = .ok children.names ∧
      Describes env join recursive (join path n) children ∧
      Describes env join recursive path rest

/-- Every child path of the listing, at every depth, fits the 1024-byte
buffer of `process_directory`. -/
def Listing.Short : String → Listing → Prop
  | _, .nil => True
  | path, .dot _ rest => Short path rest
  | path, .unreadable n _ rest => (join_path path n).length ≤ 1023 ∧ Short path rest
  | path, .leaf n _ rest => (join_path path n).length ≤ 1023 ∧ Short path rest
  | path, .dir n _ children rest =>
    (join_path path n).length ≤ 1023 ∧ Short (join_path path n) children ∧ Short path rest

/-- The children with readable metadata, at every depth, in depth-first
pre-order: a directory, then its descendants, then its later siblings. -/
def Listing.visits (join : String → String → String) : String → Listing → List (String × Stat)
  | _, .nil => []
  | path, .dot _ rest => visits join path rest
  | path, .unreadable _ _ rest => visits join path rest
  | path, .leaf n st rest => (join path n, st) :: visits join path rest
  | path, .dir n st children rest =>
    (join path n, st) :: (visits join (join path n) children ++ visits join path rest)

/-- The children whose `stat` fails, in the order they are met, each with
the error text. -/
def Listing.failures (join : String → String → String) :
    String → Listing → List (String × String)
  | _, .nil => []
  | path, .dot _ rest => failures join path rest
  | path, .unreadable n e rest => (join path n, e) :: failures join path rest
  | path, .leaf _ _ rest => failures join path rest
  | path, .dir n _ children rest =>
    failures join (join path n) children ++ failures join path rest

/-- The concatenation of a list of texts. -/
def concat_all : List String → String
  | [] => ""
  | a :: l => a ++ concat_all l

/-- The output units of a list of visited entries. -/
def units (localtime : Int → Tm) (json_output human_readable : Int)
    (vs : List (String × Stat)) : List String :=
  vs.map (fun v => print_inode_info localtime json_output v.1 v.2 human_readable)

/-- The error lines of a list of failed entries. -/
def error_lines (fs : List (String × String)) : List String :=
  fs.map (fun f => "Error getting file info for " ++ f.1 ++ ": " ++ f.2 ++ "\n")

/-- The world after a traversal that rendered `vs` and failed on `fs`. -/
def World.after (w : World) (localtime : Int → Tm) (json_output human_readable : Int)
    (vs : List (String × Stat)) (fs : List (String × String)) : World :=
  { stdout := w.stdout ++ concat_all (units localtime json_output human_readable vs),
    stderr := w.stderr ++ concat_all (error_lines fs) }

/-! ## Sample environments -/

/-- The empty output channels at the start of the program. -/
def w0 : World := ⟨"", ""⟩

/-- The metadata `lstat` gives for a symbolic link. -/
def sample_link_stat : Stat :=
  ⟨0o120777, 1313, 1, 1000, 1000, 1, 1700000000, 1700000000, 1700000000⟩

/-- A relative directory path of 1003 bytes: four components of 250 bytes. -/
def dir_1003 : String :=
  String.mk (List.replicate 250 'a' ++ '/' :: List.replicate 250 'b' ++
    '/' :: List.replicate 250 'c' ++ '/' :: List.replicate 250 'd')

/-- A relative directory path of 1023 bytes: four components of 255 bytes. -/
def dir_1023 : String :=
  String.mk (List.replicate 255 'a' ++ '/' :: List.replicate 255 'b' ++
    '/' :: List.replicate 255 'c' ++ '/' :: List.replicate 255 'd')

/-- The directory `d` holds the regular file `notes.txt` of 2048 bytes and the
subdirectory `sub`. -/
def env_scenario : Env where
  opendir := fun p =>
    if p = "d" then .ok [".", "..", "notes.txt", "sub"]
    else if p = "d/sub" then .ok [".", ".."]
    else .error "No such file or directory"
  stat := fun p =>
    if p = "d/notes.txt" then .ok sample_file_stat
    else if p = "d/sub" then .ok sample_dir_stat
    else .error "No such file or directory"
  lstat := fun p =>
    if p = "d/notes.txt" then .ok sample_file_stat
    else if p = "d/sub" then .ok sample_dir_stat
    else .error "No such file or directory"
  localtime := sample_localtime
  fopen_append := fun _ => .ok ()

/-- The directory `dir_1003` holds one regular file, `report-2024-quarterly.txt`. -/
def env_long : Env where
  opendir := fun p =>
    if p = dir_1003 then .ok [".", "..", "report-2024-quarterly.txt"]
    else .error "No such file or directory"
  stat := fun p =>
    if p = dir_1003 ++ "/report-2024-quarterly.txt" then .ok sample_file_stat
    else .error "No such file or directory"
  lstat := fun p =>
    if p = dir_1003 ++ "/report-2024-quarterly.txt" then .ok sample_file_stat
    else .error "No such file or directory"
  localtime := sample_localtime
  fopen_append := fun _ => .ok ()

/-- The directory `dir_1003` holds the subdirectory `archive-of-old-reports-2019`,
which holds the regular file `f.txt`. -/
def env_deep : Env where
  opendir := fun p =>
    if p = dir_1003 then .ok [".", "..", "archive-of-old-reports-2019"]
    else if p = dir_1003 ++ "/archive-of-old-reports-2019" then .ok [".", "..", "f.txt"]
    else .error "No such file or directory"
  stat := fun p =>
    if p = dir_1003 ++ "/archive-of-old-reports-2019" then .ok sample_dir_stat
    else if p = dir_1003 ++ "/archive-of-old-reports-2019/f.txt" then .ok sample_file_stat
    else .error "No such file or directory"
  lstat := fun p =>
    if p = dir_1003 ++ "/archive-of-old-reports-2019" then .ok sample_dir_stat
    else if p = dir_1003 ++ "/archive-of-old-reports-2019/f.txt" then .ok sample_file_stat
    else .error "No such file or directory"
  localtime := sample_localtime
  fopen_append := fun _ => .ok ()

/-- The directory `dir_1023` holds one regular file, `x`. -/
def env_full : Env where
  opendir := fun p =>
    if p = dir_1023 then .ok [".", "..", "x"] else .error "No such file or directory"
  stat := fun p =>
    if p = dir_1023 then .ok sample_dir_stat
    else if p = dir_1023 ++ "/x" then .ok sample_file_stat
    else .error "No such file or directory"
  lstat := fun p =>
    if p = dir_1023 then .ok sample_dir_stat
    else if p = dir_1023 ++ "/x" then .ok sample_file_stat
    else .error "No such file or directory"
  localtime := sample_localtime
  fopen_append := fun _ => .ok ()

/-- The directory `d` holds the symbolic link `link`, whose target is a
directory that holds the regular file `f.txt`: `lstat` of `d/link` reports
the link, `stat` of `d/link` reports the target directory. -/
def env_link : Env where
  opendir := fun p =>
    if p = "d" then .ok [".", "..", "link"]
    else if p = "d/link" then .ok [".", "..", "f.txt"]
    else .error "No such file or directory"
  stat := fun p =>
    if p = "d/link" then .ok sample_dir_stat
    else if p = "d/link/f.txt" then .ok sample_file_stat
    else .error "No such file or directory"
  lstat := fun p =>
    if p = "d/link" then .ok sample_link_stat
    else if p = "d/link/f.txt" then .ok sample_file_stat
    else .error "No such file or directory"
  localtime := sample_localtime
  fopen_append := fun _ => .ok ()

/-! ## Theorems -/

/-! ## Bit lemmas -/

theorem and_two_pow_ne_zero (m k : Nat) : (m &&& 2 ^ k ≠ 0) ↔ m.testBit k = true := by
  constructor
  · intro h
    by_contra hb
    apply h
    apply Nat.eq_of_testBit_eq
    intro i
    simp only [Nat.testBit_and, Nat.zero_testBit, Nat.testBit_two_pow]
    by_cases hki : k = i
    · subst hki; simp [hb]
    · simp [hki]
  · intro hb h
    have := congrArg (fun x => Nat.testBit x k) h
    simp [Nat.testBit_and, Nat.testBit_two_pow, hb] at this

theorem perm_char_testBit (m k : Nat) (c : Char) :
    perm_char m (2 ^ k) c = if m.testBit k then c else '-' := by
  unfold perm_char
  by_cases hb : m.testBit k = true
  · rw [if_pos ((and_two_pow_ne_zero m k).2 hb), if_pos hb]
  · rw [if_neg (fun h => hb ((and_two_pow_ne_zero m k).1 h)), if_neg hb]

theorem format_permissions_bits (mode : Nat) :
    format_permissions mode = String.mk
      [ type_glyph mode,
        if mode.testBit 8 then 'r' else '-', if mode.testBit 7 then 'w' else '-',
        if mode.testBit 6 then 'x' else '-', if mode.testBit 5 then 'r' else '-',
        if mode.testBit 4 then 'w' else '-', if mode.testBit 3 then 'x' else '-',
        if mode.testBit 2 then 'r' else '-', if mode.testBit 1 then 'w' else '-',
        if mode.testBit 0 then 'x' else '-' ] := by
  have h8 := perm_char_testBit mode 8 'r'
  have h7 := perm_char_testBit mode 7 'w'
  have h6 := perm_char_testBit mode 6 'x'
  have h5 := perm_char_testBit mode 5 'r'
  have h4 := perm_char_testBit mode 4 'w'
  have h3 := perm_char_testBit mode 3 'x'
  have h2 := perm_char_testBit mode 2 'r'
  have h1 := perm_char_testBit mode 1 'w'
  have h0 := perm_char_testBit mode 0 'x'
  norm_num at h8 h7 h6 h5 h4 h3 h2 h1 h0
  simp only [format_permissions, S_IRUSR, S_IWUSR, S_IXUSR, S_IRGRP, S_IWGRP, S_IXGRP,
    S_IROTH, S_IWOTH, S_IXOTH]
  norm_num
  simp only [h8, h7, h6, h5, h4, h3, h2, h1, h0]

theorem type_glyph_congr (m m' : Nat) (h : m' &&& S_IFMT = m &&& S_IFMT) :
    type_glyph m' = type_glyph m := by
  simp only [type_glyph, S_ISDIR, S_ISLNK, S_ISREG, S_ISCHR, S_ISBLK, S_ISFIFO, S_ISSOCK, h]

/-- The glyph chosen for the file-type bits `t = mode & S_IFMT`. -/
theorem type_cases_bits (t : Nat) :
    ([t == S_IFDIR, t == S_IFREG, t == S_IFLNK, t == S_IFCHR, t == S_IFBLK, t == S_IFIFO,
        t == S_IFSOCK],
      (if (t == S_IFDIR) = true then 'd' else if (t == S_IFLNK) = true then 'l'
        else if (t == S_IFREG) = true then '-' else if (t == S_IFCHR) = true then 'c'
        else if (t == S_IFBLK) = true then 'b' else if (t == S_IFIFO) = true then 'p'
        else if (t == S_IFSOCK) = true then 's' else '?'),
      (if (t == S_IFDIR) = true then "directory"
        else if (t == S_IFREG) = true then "regular file"
        else if (t == S_IFLNK) = true then "symbolic link"
        else if (t == S_IFCHR) = true then "character device"
        else if (t == S_IFBLK) = true then "block device"
        else if (t == S_IFIFO) = true then "FIFO"
        else if (t == S_IFSOCK) = true then "socket" else "unknown")) ∈
    [ ([true, false, false, false, false, false, false], 'd', "directory"),
      ([false, true, false, false, false, false, false], '-', "regular file"),
      ([false, false, true, false, false, false, false], 'l', "symbolic link"),
      ([false, false, false, true, false, false, false], 'c', "character device"),
      ([false, false, false, false, true, false, false], 'b', "block device"),
      ([false, false, false, false, false, true, false], 'p', "FIFO"),
      ([false, false, false, false, false, false, true], 's', "socket"),
      ([false, false, false, false, false, false, false], '?', "unknown") ] := by
  by_cases h1 : t = S_IFDIR
  · subst h1; decide
  by_cases h2 : t = S_IFREG
  · subst h2; decide
  by_cases h3 : t = S_IFLNK
  · subst h3; decide
  by_cases h4 : t = S_IFCHR
  · subst h4; decide
  by_cases h5 : t = S_IFBLK
  · subst h5; decide
  by_cases h6 : t = S_IFIFO
  · subst h6; decide
  by_cases h7 : t = S_IFSOCK
  · subst h7; decide
  have e1 : (t == S_IFDIR) = false := beq_eq_false_iff_ne.2 h1
  have e2 : (t == S_IFREG) = false := beq_eq_false_iff_ne.2 h2
  have e3 : (t == S_IFLNK) = false := beq_eq_false_iff_ne.2 h3
  have e4 : (t == S_IFCHR) = false := beq_eq_false_iff_ne.2 h4
  have e5 : (t == S_IFBLK) = false := beq_eq_false_iff_ne.2 h5
  have e6 : (t == S_IFIFO) = false := beq_eq_false_iff_ne.2 h6
  have e7 : (t == S_IFSOCK) = false := beq_eq_false_iff_ne.2 h7
  rw [e1, e2, e3, e4, e5, e6, e7]
  decide

/-- The eight possible classifications of a mode: which predicates hold
(in the order of `type_predicates`), the glyph and the label. -/
theorem type_cases (mode : Nat) :
    (type_predicates mode = [true, false, false, false, false, false, false] ∧
      type_glyph mode = 'd' ∧ type_label mode = "directory") ∨
    (type_predicates mode = [false, true, false, false, false, false, false] ∧
      type_glyph mode = '-' ∧ type_label mode = "regular file") ∨
    (type_predicates mode = [false, false, true, false, false, false, false] ∧
      type_glyph mode = 'l' ∧ type_label mode = "symbolic link") ∨
    (type_predicates mode = [false, false, false, true, false, false, false] ∧
      type_glyph mode = 'c' ∧ type_label mode = "character device") ∨
    (type_predicates mode = [false, false, false, false, true, false, false] ∧
      type_glyph mode = 'b' ∧ type_label mode = "block device") ∨
    (type_predicates mode = [false, false, false, false, false, true, false] ∧
      type_glyph mode = 'p' ∧ type_label mode = "FIFO") ∨
    (type_predicates mode = [false, false, false, false, false, false, true] ∧
      type_glyph mode = 's' ∧ type_label mode = "socket") ∨
    (type_predicates mode = [false, false, false, false, false, false, false] ∧
      type_glyph mode = '?' ∧ type_label mode = "unknown") := by
  have h := type_cases_bits (mode &&& S_IFMT)
  simp only [List.mem_cons, List.mem_singleton, List.not_mem_nil, or_false, Prod.mk.injEq] at h
  exact h

theorem type_glyph_iff (mode : Nat) :
    (type_glyph mode = 'd' ↔ S_ISDIR mode = true) ∧
    (type_glyph mode = 'l' ↔ S_ISLNK mode = true) ∧
    (type_glyph mode = '-' ↔ S_ISREG mode = true) ∧
    (type_glyph mode = 'c' ↔ S_ISCHR mode = true) ∧
    (type_glyph mode = 'b' ↔ S_ISBLK mode = true) ∧
    (type_glyph mode = 'p' ↔ S_ISFIFO mode = true) ∧
    (type_glyph mode = 's' ↔ S_ISSOCK mode = true) ∧
    (type_glyph mode = '?' ↔ ∀ b ∈ type_predicates mode, b = false) := by
  have hp : type_predicates mode = [S_ISDIR mode, S_ISREG mode, S_ISLNK mode, S_ISCHR mode,
      S_ISBLK mode, S_ISFIFO mode, S_ISSOCK mode] := rfl
  rcases type_cases mode with h | h | h | h | h | h | h | h <;>
    obtain ⟨hl, hg, -⟩ := h <;>
    rw [hg] <;> rw [hl] at hp <;>
    simp only [List.cons.injEq, and_true] at hp <;>
    obtain ⟨p1, p2, p3, p4, p5, p6, p7⟩ := hp <;>
    rw [hl, ← p1, ← p2, ← p3, ← p4, ← p5, ← p6, ← p7] <;>
    decide

theorem type_glyph_alphabet (mode : Nat) : type_glyph mode ∈ perm_alphabet := by
  rcases type_cases mode with h | h | h | h | h | h | h | h <;>
    obtain ⟨-, hg, -⟩ := h <;> rw [hg] <;> decide

theorem ite_alphabet (b : Bool) (x : Char) (hx : x ∈ perm_alphabet) :
    (if b = true then x else '-') ∈ perm_alphabet := by
  cases b
  · show '-' ∈ perm_alphabet
    decide
  · simpa using hx

theorem format_permissions_alphabet (mode : Nat) :
    ∀ c ∈ (format_permissions mode).data, c ∈ perm_alphabet := by
  intro c hc
  rw [format_permissions_bits] at hc
  simp only [List.mem_cons, List.mem_singleton, List.not_mem_nil, or_false] at hc
  rcases hc with h | h | h | h | h | h | h | h | h | h <;> subst h <;>
    first
    | exact type_glyph_alphabet mode
    | exact ite_alphabet _ _ (by decide)

theorem format_permissions_get (m i : Nat) (hi : i < 9) :
    (format_permissions m).data[i + 1]? =
      some (if m.testBit (8 - i) then perm_letters.getD i '-' else '-') := by
  rw [format_permissions_bits]
  interval_cases i <;> rfl

theorem format_permissions_mask (mode m' : Nat)
    (hm : ∀ k : Nat, k ≠ 9 → k ≠ 10 → k ≠ 11 → m'.testBit k = mode.testBit k) :
    format_permissions m' = format_permissions mode := by
  rw [format_permissions_bits, format_permissions_bits]
  have hg : type_glyph m' = type_glyph mode := by
    apply type_glyph_congr
    apply Nat.eq_of_testBit_eq
    intro i
    simp only [Nat.testBit_and]
    by_cases h9 : i = 9
    · subst h9; simp [S_IFMT, Nat.testBit]
    by_cases h10 : i = 10
    · subst h10; simp [S_IFMT, Nat.testBit]
    by_cases h11 : i = 11
    · subst h11; simp [S_IFMT, Nat.testBit]
    rw [hm i h9 h10 h11]
  rw [hg, hm 8 (by decide) (by decide) (by decide), hm 7 (by decide) (by decide) (by decide),
    hm 6 (by decide) (by decide) (by decide), hm 5 (by decide) (by decide) (by decide),
    hm 4 (by decide) (by decide) (by decide), hm 3 (by decide) (by decide) (by decide),
    hm 2 (by decide) (by decide) (by decide), hm 1 (by decide) (by decide) (by decide),
    hm 0 (by decide) (by decide) (by decide)]

/-- Claim C1. For every mode, `format_permissions` returns exactly ten
characters, each from the alphabet `d l - c b p s ? r w x`; character 0 is
the type glyph, chosen by the type predicates only (`?` exactly when none
holds) and therefore by the file-type bits `mode & S_IFMT` only; character
`i + 1` is the letter of position `i` (owner r,w,x, group r,w,x, other
r,w,x) when permission bit `8 - i` is set and `-` when it is clear, and
depends on that bit only; modes that agree outside the setuid, setgid and
sticky bits (bits 9, 10, 11) give the same string. -/
theorem format_permissions_spec (mode : Nat) :
    (format_permissions mode).length = 10 ∧
    (∀ c ∈ (format_permissions mode).data, c ∈ perm_alphabet) ∧
    (format_permissions mode).data[0]? = some (type_glyph mode) ∧
    ((type_glyph mode = 'd' ↔ S_ISDIR mode = true) ∧
     (type_glyph mode = 'l' ↔ S_ISLNK mode = true) ∧
     (type_glyph mode = '-' ↔ S_ISREG mode = true) ∧
     (type_glyph mode = 'c' ↔ S_ISCHR mode = true) ∧
     (type_glyph mode = 'b' ↔ S_ISBLK mode = true) ∧
     (type_glyph mode = 'p' ↔ S_ISFIFO mode = true) ∧
     (type_glyph mode = 's' ↔ S_ISSOCK mode = true) ∧
     (type_glyph mode = '?' ↔ ∀ b ∈ type_predicates mode, b = false)) ∧
    (∀ m' : Nat, m' &&& S_IFMT = mode &&& S_IFMT →
      (format_permissions m').data[0]? = (format_permissions mode).data[0]?) ∧
    (∀ i : Nat, i < 9 → (format_permissions mode).data[i + 1]? =
      some (if mode.testBit (8 - i) then perm_letters.getD i '-' else '-')) ∧
    (∀ (m' i : Nat), i < 9 → m'.testBit (8 - i) = mode.testBit (8 - i) →
      (format_permissions m').data[i + 1]? = (format_permissions mode).data[i + 1]?) ∧
    (∀ m' : Nat, (∀ k : Nat, k ≠ 9 → k ≠ 10 → k ≠ 11 → m'.testBit k = mode.testBit k) →
      format_permissions m' = format_permissions mode) := by
  refine ⟨rfl, format_permissions_alphabet mode, rfl, type_glyph_iff mode, ?_,
    format_permissions_get mode, ?_, format_permissions_mask mode⟩
  · intro m' hm
    show some (type_glyph m') = some (type_glyph mode)
    rw [type_glyph_congr mode m' hm]
  · intro m' i hi hb
    rw [format_permissions_get m' i hi, format_permissions_get mode i hi, hb]


/-- The statement of `format_permissions_spec` at the modes 0100644 and
0100755 (same type bits, hence the same glyph) and at 0104644 and 0100644
(same permission bit 8, hence the same character 1). -/
theorem format_permissions_spec_witness :
    (0o100755 &&& S_IFMT = 0o100644 &&& S_IFMT ∧
      (format_permissions 0o100755).data[0]? = (format_permissions 0o100644).data[0]?) ∧
    ((0 : Nat) < 9 ∧ Nat.testBit 0o104644 (8 - 0) = Nat.testBit 0o100644 (8 - 0) ∧
      (format_permissions 0o104644).data[0 + 1]? =
        (format_permissions 0o100644).data[0 + 1]?) :=
  ⟨⟨by decide, (format_permissions_spec 0o100644).2.2.2.2.1 0o100755 (by decide)⟩,
    ⟨by decide, by decide,
      (format_permissions_spec 0o100644).2.2.2.2.2.2.1 0o104644 0 (by decide) (by decide)⟩⟩

/-! ## Sizes -/

theorem hundredths_spec (d k : Nat) :
    200 * d ≤ (2 * hundredths d k + 1) * 2 ^ k ∧
    2 * hundredths d k * 2 ^ k ≤ 200 * d + 2 ^ k := by
  have hP : 0 < 2 ^ k := Nat.two_pow_pos k
  have hdm := Nat.div_add_mod (100 * d) (2 ^ k)
  have hr := Nat.mod_lt (100 * d) hP
  unfold hundredths
  simp only []
  generalize 2 ^ k = P at *
  generalize 100 * d / P = q at *
  generalize 100 * d % P = r at *
  split_ifs with hc
  · have e1 : (2 * (q + 1) + 1) * P = 2 * (P * q) + 3 * P := by ring
    have e2 : 2 * (q + 1) * P = 2 * (P * q) + 2 * P := by ring
    rw [e1, e2]
    rcases hc with hc | ⟨hc, -⟩ <;> omega
  · have e1 : (2 * q + 1) * P = 2 * (P * q) + P := by ring
    have e2 : 2 * q * P = 2 * (P * q) := by ring
    rw [e1, e2]
    have : ¬ (2 * r > P) := fun h => hc (Or.inl h)
    omega

theorem printf_2f_shows (d k : Nat) : ShowsTwoDecimals (printf_2f d k) d (2 ^ k) :=
  ⟨hundredths d k, rfl, Nat.mod_lt _ (by decide), Nat.mod_lt _ (by decide),
    (hundredths_spec d k).1, (hundredths_spec d k).2⟩

theorem to_double_exact (n : Nat) (h : n < 2 ^ 53) : to_double n = n := by
  unfold to_double
  rw [if_pos h]

theorem bit_length_spec : ∀ (fuel n : Nat), n ≤ fuel → n ≠ 0 →
    2 ^ (bit_length fuel n - 1) ≤ n ∧ n < 2 ^ bit_length fuel n := by
  intro fuel
  induction fuel with
  | zero => intro n h0 h1; omega
  | succ f ih =>
    intro n hn hne
    unfold bit_length
    rw [if_neg hne]
    by_cases h2 : n / 2 = 0
    · have h1 : n = 1 := by omega
      subst h1
      cases f <;> simp [bit_length]
    · have hle : n / 2 ≤ f := by omega
      obtain ⟨ih1, ih2⟩ := ih (n / 2) hle h2
      have hpos : 1 ≤ bit_length f (n / 2) := by
        cases f with
        | zero => omega
        | succ g => unfold bit_length; rw [if_neg h2]; omega
      constructor
      · have : bit_length f (n / 2) + 1 - 1 = (bit_length f (n / 2) - 1) + 1 := by omega
        rw [this, pow_succ]
        omega
      · rw [pow_succ]
        omega

theorem to_double_close (n : Nat) :
    2 ^ 53 * (to_double n - n) ≤ n ∧ 2 ^ 53 * (n - to_double n) ≤ n := by
  unfold to_double
  by_cases h : n < 2 ^ 53
  · rw [if_pos h]; simp
  · rw [if_neg h]
    have hne : n ≠ 0 := by
      intro h0; apply h; rw [h0]; exact Nat.two_pow_pos 53
    obtain ⟨b1, b2⟩ := bit_length_spec n n (le_refl n) hne
    have hbl : 54 ≤ bit_length n n := by
      by_contra hlt
      have h53 : bit_length n n ≤ 53 := by omega
      have : 2 ^ bit_length n n ≤ 2 ^ 53 := Nat.pow_le_pow_right (by decide) h53
      omega
    obtain ⟨sh, hsh⟩ : ∃ sh, bit_length n n = sh + 53 := ⟨bit_length n n - 53, by omega⟩
    have hsh1 : 1 ≤ sh := by omega
    have e0 : bit_length n n - 53 = sh := by omega
    have e1 : bit_length n n - 1 = 52 + sh := by omega
    rw [e1, pow_add] at b1
    rw [e0]
    simp only []
    have hP : 0 < 2 ^ sh := Nat.two_pow_pos sh
    have hdm := Nat.div_add_mod n (2 ^ sh)
    have hr := Nat.mod_lt n hP
    generalize 2 ^ sh = P at *
    generalize n / P = q at *
    generalize n % P = r at *
    split_ifs with hc
    · have e2 : (q + 1) * P = P * q + P := by ring
      rw [e2]
      rcases hc with hc | ⟨hc, -⟩ <;> omega
    · have e2 : q * P = P * q := by ring
      rw [e2]
      have : ¬ (2 * r > P) := fun h => hc (Or.inl h)
      omega

theorem unit_of_append_GB (x : String) : unit_of (x ++ " GB") = some .GB := by
  simp [unit_of, String.data_append]

theorem unit_of_append_MB (x : String) : unit_of (x ++ " MB") = some .MB := by
  simp [unit_of, String.data_append]

theorem unit_of_append_KB (x : String) : unit_of (x ++ " KB") = some .KB := by
  simp [unit_of, String.data_append]

theorem unit_of_append_bytes (x : String) : unit_of (x ++ " bytes") = some .bytes := by
  simp [unit_of, String.data_append]

/-- The unit of a human-readable size, by the thresholds of `format_size`. -/
theorem unit_of_format_size (size hr : Int) (h : hr ≠ 0) :
    unit_of (format_size size hr) =
      some (if size ≥ 1073741824 then .GB else if size ≥ 1048576 then .MB
        else if size ≥ 1024 then .KB else .bytes) := by
  unfold format_size
  rw [if_pos h]
  split_ifs
  · exact unit_of_append_GB _
  · exact unit_of_append_MB _
  · exact unit_of_append_KB _
  · exact unit_of_append_bytes _

/-- Below `2^53` the conversion to double is exact, so `%.2f` shows the
quotient of `size` itself. -/
theorem printf_2f_shows_exact (n k : Nat) (h : n < 2 ^ 53) :
    ShowsTwoDecimals (printf_2f (to_double n) k) n (2 ^ k) := by
  have hs := printf_2f_shows (to_double n) k
  rw [to_double_exact n h] at hs ⊢
  exact hs

theorem toNat_lt_of_lt (size : Int) (h : size < 2 ^ 53) : size.toNat < 2 ^ 53 := by
  omega

theorem append_right_cancel (x y z : String) (h : x ++ z = y ++ z) : x = y := by
  have hd := congrArg String.data h
  rw [String.data_append, String.data_append] at hd
  exact String.ext (List.append_cancel_right hd)

/-- Claim C2 fails as stated: at `size = 300036057077613855` (below `2^63`)
the conversion of `size` to double rounds it to `300036057077613824`, and
human-readable `format_size` prints `279430353.15 GB`, while `size / 2^30` is
`279430353.15500000026…`, which with two decimals is `279430353.16`: the
text printed is not `size / 2^30` with two decimals. -/
theorem format_size_double_rounding :
    to_double 300036057077613855 = 300036057077613824 ∧
    format_size 300036057077613855 1 = "279430353.15 GB" ∧
    ¬ ShowsTwoDecimals "279430353.15" 300036057077613855 (2 ^ 30) ∧
    (∀ x : String, format_size 300036057077613855 1 = x ++ " GB" →
      ¬ ShowsTwoDecimals x 300036057077613855 (2 ^ 30)) := by
  have hfmt : format_size 300036057077613855 1 = "279430353.15 GB" := by decide
  have hnot : ¬ ShowsTwoDecimals "279430353.15" 300036057077613855 (2 ^ 30) := by
    rintro ⟨h, hs, -, -, hb1, hb2⟩
    have hh : h = 27943035316 := by
      norm_num at hb1 hb2
      omega
    subst hh
    exact absurd hs (by decide)
  refine ⟨by decide, hfmt, hnot, ?_⟩
  intro x hx
  have hx2 : x ++ " GB" = "279430353.15" ++ " GB" := by
    rw [← hx, hfmt]
    decide
  rw [append_right_cancel x "279430353.15" " GB" hx2]
  exact hnot

/-- Claim C2, amended. `format_size` in raw mode (`human_readable = 0`)
returns the decimal integer of `size`.  In human-readable mode it returns,
for `size ≥ 2^30`, the quotient `d / 2^30` with two decimals followed by
` GB`; else for `size ≥ 2^20` the quotient `d / 2^20` with two decimals and
` MB`; else for `size ≥ 2^10` the quotient `d / 2^10` with two decimals and
` KB`; else the decimal integer followed by ` bytes`.  Here `d` is `size`
converted to double: `d = size` for every size below `2^53`, where the
text therefore shows `size / 2^k` itself with two decimals, and `d` is within
`size / 2^53` of `size` always.  The five boundary values of the spec give
`1023 bytes`, `1.00 KB`, `2.00 KB`, `1.00 MB`, `1.00 GB`. -/
theorem format_size_spec (size human_readable : Int) :
    (human_readable = 0 → format_size size human_readable = printf_lld size) ∧
    (human_readable ≠ 0 →
      (1073741824 ≤ size → ∃ x : String, format_size size human_readable = x ++ " GB" ∧
        ShowsTwoDecimals x (to_double size.toNat) (2 ^ 30) ∧
        (size < 2 ^ 53 → ShowsTwoDecimals x size.toNat (2 ^ 30))) ∧
      (size < 1073741824 → 1048576 ≤ size → ∃ x : String,
        format_size size human_readable = x ++ " MB" ∧
        ShowsTwoDecimals x size.toNat (2 ^ 20)) ∧
      (size < 1048576 → 1024 ≤ size → ∃ x : String,
        format_size size human_readable = x ++ " KB" ∧
        ShowsTwoDecimals x size.toNat (2 ^ 10)) ∧
      (size < 1024 → format_size size human_readable = printf_lld size ++ " bytes")) ∧
    (size.toNat < 2 ^ 53 → to_double size.toNat = size.toNat) ∧
    (2 ^ 53 * (to_double size.toNat - size.toNat) ≤ size.toNat ∧
      2 ^ 53 * (size.toNat - to_double size.toNat) ≤ size.toNat) ∧
    (0 ≤ size → printf_lld size = Nat.repr size.toNat) ∧
    format_size 1023 1 = "1023 bytes" ∧
    format_size 1024 1 = "1.00 KB" ∧
    format_size 2048 1 = "2.00 KB" ∧
    format_size 1048576 1 = "1.00 MB" ∧
    format_size 1073741824 1 = "1.00 GB" := by
  refine ⟨?_, ?_, to_double_exact _, to_double_close _, ?_, by decide, by decide, by decide,
    by decide, by decide⟩
  · intro h
    unfold format_size
    rw [if_neg (not_not.2 h)]
  · intro h
    unfold format_size
    rw [if_pos h]
    refine ⟨?_, ?_, ?_, ?_⟩
    · intro h1
      rw [if_pos (ge_iff_le.2 h1)]
      exact ⟨_, rfl, printf_2f_shows _ _,
        fun hlt => printf_2f_shows_exact _ _ (toNat_lt_of_lt size hlt)⟩
    · intro h1 h2
      rw [if_neg (not_le.2 h1), if_pos (ge_iff_le.2 h2)]
      exact ⟨_, rfl, printf_2f_shows_exact _ _ (toNat_lt_of_lt size (by omega))⟩
    · intro h1 h2
      rw [if_neg (by omega), if_neg (not_le.2 h1), if_pos (ge_iff_le.2 h2)]
      exact ⟨_, rfl, printf_2f_shows_exact _ _ (toNat_lt_of_lt size (by omega))⟩
    · intro h1
      rw [if_neg (by omega), if_neg (by omega), if_neg (not_le.2 h1)]
  · intro h
    unfold printf_lld
    rw [if_neg (not_lt.2 h)]

/-- The statement of `format_size_spec` at `size = 2048` (raw mode and
human-readable mode) and at `size = 3 * 2^30` (below `2^53`). -/
theorem format_size_spec_witness :
    format_size 2048 0 = printf_lld 2048 ∧
    (∃ x : String, format_size 2048 1 = x ++ " KB" ∧
      ShowsTwoDecimals x (2048 : Int).toNat (2 ^ 10)) ∧
    (∃ x : String, format_size 3221225472 1 = x ++ " GB" ∧
      ShowsTwoDecimals x (to_double (3221225472 : Int).toNat) (2 ^ 30) ∧
      ((3221225472 : Int) < 2 ^ 53 → ShowsTwoDecimals x (3221225472 : Int).toNat (2 ^ 30))) :=
  ⟨(format_size_spec 2048 0).1 rfl,
    ((format_size_spec 2048 1).2.1 (by decide)).2.2.1 (by decide) (by decide),
    ((format_size_spec 3221225472 1).2.1 (by decide)).1 (by decide)⟩

/-- Claim C10. Human-readable `format_size` is monotonic in its unit: for
`a < b` the unit that `format_size(a, 1)` ends with is, in the order
bytes < KB < MB < GB, never larger than the unit of `format_size(b, 1)`. -/
theorem format_size_unit_monotone (a b : Int) (h : a < b) :
    ∃ ua ub : SizeUnit, unit_of (format_size a 1) = some ua ∧
      unit_of (format_size b 1) = some ub ∧ ua.rank ≤ ub.rank := by
  refine ⟨_, _, unit_of_format_size a 1 (by decide), unit_of_format_size b 1 (by decide), ?_⟩
  split_ifs <;> first | (simp only [SizeUnit.rank]; omega)

/-- The statement of `format_size_unit_monotone` at `a = 1000`, `b = 2000`. -/
theorem format_size_unit_monotone_witness :
    (1000 : Int) < 2000 ∧
    ∃ ua ub : SizeUnit, unit_of (format_size 1000 1) = some ua ∧
      unit_of (format_size 2000 1) = some ub ∧ ua.rank ≤ ub.rank :=
  ⟨by decide, format_size_unit_monotone 1000 2000 (by decide)⟩

/-- Claim C9. For every mode at most one of the seven type predicates
holds; the glyph of `format_permissions` and the label printed by
`print_inode_info_json` and `print_inode_info_text` (`type_label`) denote the
same entry type: each predicate holds exactly when the glyph is its glyph and
exactly when the label is its label; the glyph is `?` exactly when the label
is `unknown`, which is exactly when no predicate holds. -/
theorem type_glyph_label_agree (mode : Nat) :
    (type_predicates mode).count true ≤ 1 ∧
    (type_glyph mode, type_label mode) ∈
      [('d', "directory"), ('-', "regular file"), ('l', "symbolic link"),
       ('c', "character device"), ('b', "block device"), ('p', "FIFO"), ('s', "socket"),
       ('?', "unknown")] ∧
    ((S_ISDIR mode = true ↔ type_glyph mode = 'd') ∧
      (S_ISDIR mode = true ↔ type_label mode = "directory")) ∧
    ((S_ISREG mode = true ↔ type_glyph mode = '-') ∧
      (S_ISREG mode = true ↔ type_label mode = "regular file")) ∧
    ((S_ISLNK mode = true ↔ type_glyph mode = 'l') ∧
      (S_ISLNK mode = true ↔ type_label mode = "symbolic link")) ∧
    ((S_ISCHR mode = true ↔ type_glyph mode = 'c') ∧
      (S_ISCHR mode = true ↔ type_label mode = "character device")) ∧
    ((S_ISBLK mode = true ↔ type_glyph mode = 'b') ∧
      (S_ISBLK mode = true ↔ type_label mode = "block device")) ∧
    ((S_ISFIFO mode = true ↔ type_glyph mode = 'p') ∧
      (S_ISFIFO mode = true ↔ type_label mode = "FIFO")) ∧
    ((S_ISSOCK mode = true ↔ type_glyph mode = 's') ∧
      (S_ISSOCK mode = true ↔ type_label mode = "socket")) ∧
    (type_glyph mode = '?' ↔ type_label mode = "unknown") ∧
    (type_label mode = "unknown" ↔ ∀ b ∈ type_predicates mode, b = false) ∧
    (∀ (localtime : Int → Tm) (file_path : String) (fileInfo : Stat) (human_readable : Int),
      fileInfo.st_mode = mode →
      (∃ pre post : String, print_inode_info_json localtime file_path fileInfo human_readable =
        pre ++ "    \"type\": \"" ++ type_label mode ++ "\",\n" ++
        "    \"permissions\": \"" ++ format_permissions mode ++ "\",\n" ++ post) ∧
      (∃ pre post : String, print_inode_info_text localtime file_path fileInfo human_readable =
        pre ++ "File Type: " ++ type_label mode ++ "\n" ++
        "Permissions: " ++ format_permissions mode ++ "\n" ++ post)) := by
  have hp : type_predicates mode = [S_ISDIR mode, S_ISREG mode, S_ISLNK mode, S_ISCHR mode,
      S_ISBLK mode, S_ISFIFO mode, S_ISSOCK mode] := rfl
  refine ⟨?_, ?_, ?_⟩
  · rcases type_cases mode with h | h | h | h | h | h | h | h <;>
      obtain ⟨hl, -, -⟩ := h <;> rw [hl] <;> decide
  · rcases type_cases mode with h | h | h | h | h | h | h | h <;>
      obtain ⟨-, hg, hlab⟩ := h <;> rw [hg, hlab] <;> decide
  · refine ⟨?_, ?_, ?_, ?_, ?_, ?_, ?_, ?_, ?_, ?_⟩
    case refine_10 =>
      intro localtime file_path fileInfo human_readable hm
      subst hm
      constructor
      · refine ⟨"\x7b\n" ++ "  \"filePath\": \"" ++ file_path ++ "\",\n" ++
          "  \"inode\": \x7b\n" ++
          "    \"number\": " ++ printf_lu (fileInfo.st_ino % 2 ^ 64) ++ ",\n",
          "    \"linkCount\": " ++ printf_lu (fileInfo.st_nlink % 2 ^ 64) ++ ",\n" ++
          "    \"uid\": " ++ printf_lu (fileInfo.st_uid % 2 ^ 32) ++ ",\n" ++
          "    \"gid\": " ++ printf_lu (fileInfo.st_gid % 2 ^ 32) ++ ",\n" ++
          "    \"size\": \"" ++ format_size fileInfo.st_size human_readable ++ "\",\n" ++
          "    \"accessTime\": \"" ++ format_time localtime fileInfo.st_atime human_readable ++
          "\",\n" ++
          "    \"modificationTime\": \"" ++
          format_time localtime fileInfo.st_mtime human_readable ++ "\",\n" ++
          "    \"statusChangeTime\": \"" ++
          format_time localtime fileInfo.st_ctime human_readable ++ "\"\n" ++
          "  \x7d\n" ++ "\x7d\n", ?_⟩
        simp only [print_inode_info_json, String.append_assoc]
      · refine ⟨"Information for " ++ file_path ++ ":\n" ++
          "File Inode: " ++ printf_lu (fileInfo.st_ino % 2 ^ 64) ++ "\n",
          "Number of Hard Links: " ++ printf_lu (fileInfo.st_nlink % 2 ^ 64) ++ "\n" ++
          "Owner UID: " ++ printf_lu (fileInfo.st_uid % 2 ^ 32) ++ "\n" ++
          "Group GID: " ++ printf_lu (fileInfo.st_gid % 2 ^ 32) ++ "\n" ++
          "File Size: " ++ format_size fileInfo.st_size human_readable ++ "\n" ++
          "Last Access Time: " ++ format_time localtime fileInfo.st_atime human_readable ++
          "\n" ++
          "Last Modification Time: " ++ format_time localtime fileInfo.st_mtime human_readable ++
          "\n" ++
          "Last Status Change Time: " ++ format_time localtime fileInfo.st_ctime human_readable ++
          "\n", ?_⟩
        simp only [print_inode_info_text, String.append_assoc]
    all_goals
      rcases type_cases mode with h | h | h | h | h | h | h | h <;>
        obtain ⟨hl, hg, hlab⟩ := h <;>
        (try rw [hg]) <;> (try rw [hlab]) <;> rw [hl] at hp <;>
        simp only [List.cons.injEq, and_true] at hp <;>
        obtain ⟨p1, p2, p3, p4, p5, p6, p7⟩ := hp <;>
        (try rw [hl]) <;>
        (try rw [← p1]) <;> (try rw [← p2]) <;> (try rw [← p3]) <;> (try rw [← p4]) <;>
        (try rw [← p5]) <;> (try rw [← p6]) <;> (try rw [← p7]) <;>
        decide

/-- The statement of `type_glyph_label_agree` for the metadata of a
directory of mode 040755: both printing functions show the label and the
permission string of that mode. -/
theorem type_glyph_label_agree_witness :
    sample_dir_stat.st_mode = 0o040755 ∧
    (∃ pre post : String, print_inode_info_json sample_localtime "d" sample_dir_stat 0 =
      pre ++ "    \"type\": \"" ++ type_label 0o040755 ++ "\",\n" ++
      "    \"permissions\": \"" ++ format_permissions 0o040755 ++ "\",\n" ++ post) ∧
    (∃ pre post : String, print_inode_info_text sample_localtime "d" sample_dir_stat 0 =
      pre ++ "File Type: " ++ type_label 0o040755 ++ "\n" ++
      "Permissions: " ++ format_permissions 0o040755 ++ "\n" ++ post) :=
  ⟨rfl, (type_glyph_label_agree 0o040755).2.2.2.2.2.2.2.2.2.2.2 sample_localtime "d"
    sample_dir_stat 0 rfl⟩

/-! ## Decimal digits -/

theorem digitChar_spec (m : Nat) (h : m < 10) :
    Nat.digitChar m ∈ decimal_digits ∧ (Nat.digitChar m).toNat - 48 = m := by
  interval_cases m <;> decide

theorem foldl_decimal_value (l : List Char) (a : Nat) :
    l.foldl (fun acc c => 10 * acc + (c.toNat - 48)) a = a * 10 ^ l.length + decimal_value l := by
  induction l generalizing a with
  | nil => simp [decimal_value]
  | cons c t ih =>
    simp only [List.foldl_cons, List.length_cons, decimal_value]
    rw [ih, ih (10 * 0 + (c.toNat - 48))]
    ring

theorem toDigitsCore_spec : ∀ (fuel n : Nat) (ds : List Char), n < fuel →
    (∀ c ∈ ds, c ∈ decimal_digits) →
    (∀ c ∈ Nat.toDigitsCore 10 fuel n ds, c ∈ decimal_digits) ∧
    Nat.toDigitsCore 10 fuel n ds ≠ [] ∧
    decimal_value (Nat.toDigitsCore 10 fuel n ds) = n * 10 ^ ds.length + decimal_value ds := by
  intro fuel
  induction fuel with
  | zero => intro n ds h; omega
  | succ f ih =>
    intro n ds hn hds
    have hd := digitChar_spec (n % 10) (Nat.mod_lt _ (by decide))
    have hds' : ∀ c ∈ Nat.digitChar (n % 10) :: ds, c ∈ decimal_digits := by
      intro c hc
      rcases List.mem_cons.1 hc with h | h
      · rw [h]; exact hd.1
      · exact hds c h
    have hv : decimal_value (Nat.digitChar (n % 10) :: ds) =
        (n % 10) * 10 ^ ds.length + decimal_value ds := by
      simp only [decimal_value, List.foldl_cons]
      rw [foldl_decimal_value, hd.2]
      simp [decimal_value]
    unfold Nat.toDigitsCore
    simp only []
    split_ifs with h0
    · refine ⟨hds', by simp, ?_⟩
      rw [hv]
      have : n % 10 = n := by omega
      rw [this]
    · have hlt : n / 10 < f := by omega
      obtain ⟨i1, i2, i3⟩ := ih (n / 10) _ hlt hds'
      refine ⟨i1, i2, ?_⟩
      rw [i3, hv, List.length_cons, pow_succ]
      have hdm := Nat.div_add_mod n 10
      generalize 10 ^ ds.length = P
      generalize n / 10 = q at hdm
      generalize n % 10 = r at hdm
      subst hdm
      ring

/-- The conversion `%lu` prints the decimal digits of its argument. -/
theorem printf_lu_decimal (n : Nat) : IsUnsignedDecimal (printf_lu n) n := by
  obtain ⟨h1, h2, h3⟩ := toDigitsCore_spec (n + 1) n [] (Nat.lt_succ_self n)
    (fun c hc => absurd hc (List.not_mem_nil c))
  refine ⟨h2, h1, ?_⟩
  rw [show (printf_lu n).data = Nat.toDigitsCore 10 (n + 1) n [] from rfl, h3]
  simp [decimal_value]

theorem plain_of_digit : ∀ c ∈ decimal_digits, c ∈ plain_chars := by decide

theorem plain_chars_safe : ∀ c ∈ plain_chars, c ≠ '"' ∧ c ≠ '\\' ∧ 32 ≤ c.toNat := by decide

theorem IsPlain_append (a b : String) (ha : IsPlain a) (hb : IsPlain b) : IsPlain (a ++ b) := by
  intro c hc
  rw [String.data_append, List.mem_append] at hc
  rcases hc with h | h
  · exact ha c h
  · exact hb c h

theorem IsPlain_repr (n : Nat) : IsPlain (Nat.repr n) :=
  fun c hc => plain_of_digit c ((printf_lu_decimal n).2.1 c hc)

theorem IsPlain_printf_lld (n : Int) : IsPlain (printf_lld n) := by
  unfold printf_lld
  split_ifs
  · exact IsPlain_append _ _ (by decide) (IsPlain_repr _)
  · exact IsPlain_repr _

theorem IsPlain_printf_02d (n : Int) : IsPlain (printf_02d n) := by
  unfold printf_02d
  split_ifs
  · exact IsPlain_append _ _ (by decide) (IsPlain_printf_lld _)
  · exact IsPlain_printf_lld _

theorem IsPlain_format_time (localtime : Int → Tm) (t hr : Int) :
    IsPlain (format_time localtime t hr) := by
  unfold format_time
  split_ifs
  · unfold strftime_ymd_hms
    have hsep1 : IsPlain "-" := by decide
    have hsep2 : IsPlain " " := by decide
    have hsep3 : IsPlain ":" := by decide
    repeat first
      | apply IsPlain_append
      | exact IsPlain_printf_lld _
      | exact IsPlain_printf_02d _
      | assumption
  · exact IsPlain_printf_lld _

theorem IsPlain_format_size (size hr : Int) : IsPlain (format_size size hr) := by
  have h2 : ∀ d k, IsPlain (printf_2f d k) := by
    intro d k
    unfold printf_2f two_decimals
    have hp : IsPlain "." := by decide
    repeat first
      | apply IsPlain_append
      | exact IsPlain_repr _
      | assumption
  unfold format_size
  split_ifs
  · exact IsPlain_append _ _ (h2 _ _) (by decide)
  · exact IsPlain_append _ _ (h2 _ _) (by decide)
  · exact IsPlain_append _ _ (h2 _ _) (by decide)
  · exact IsPlain_append _ _ (IsPlain_printf_lld _) (by decide)
  · exact IsPlain_printf_lld _

theorem IsPlain_type_label (mode : Nat) : IsPlain (type_label mode) := by
  rcases type_cases mode with h | h | h | h | h | h | h | h <;>
    obtain ⟨-, -, hlab⟩ := h <;> rw [hlab] <;> decide

theorem IsPlain_format_permissions (mode : Nat) : IsPlain (format_permissions mode) := by
  intro c hc
  have h := format_permissions_alphabet mode c hc
  have key : ∀ x ∈ perm_alphabet, x ∈ plain_chars := by decide
  exact key c h

/-- The text of `print_inode_info_json` is the fixed template, with
`file_path` copied in as it is: the four numbers are the unsigned decimal
integers of the inode number, link count, uid and gid, and the six values the
program formats itself contain no quote, backslash or control character. -/
theorem print_inode_info_json_template (localtime : Int → Tm) (file_path : String)
    (fileInfo : Stat) (human_readable : Int) :
    ∃ number type permissions linkCount uid gid size accessTime modificationTime
        statusChangeTime : String,
      print_inode_info_json localtime file_path fileInfo human_readable =
        "\x7b\n" ++
        "  \"filePath\": \"" ++ file_path ++ "\",\n" ++
        "  \"inode\": \x7b\n" ++
        "    \"number\": " ++ number ++ ",\n" ++
        "    \"type\": \"" ++ type ++ "\",\n" ++
        "    \"permissions\": \"" ++ permissions ++ "\",\n" ++
        "    \"linkCount\": " ++ linkCount ++ ",\n" ++
        "    \"uid\": " ++ uid ++ ",\n" ++
        "    \"gid\": " ++ gid ++ ",\n" ++
        "    \"size\": \"" ++ size ++ "\",\n" ++
        "    \"accessTime\": \"" ++ accessTime ++ "\",\n" ++
        "    \"modificationTime\": \"" ++ modificationTime ++ "\",\n" ++
        "    \"statusChangeTime\": \"" ++ statusChangeTime ++ "\"\n" ++
        "  \x7d\n" ++
        "\x7d\n" ∧
      IsUnsignedDecimal number (fileInfo.st_ino % 2 ^ 64) ∧
      IsUnsignedDecimal linkCount (fileInfo.st_nlink % 2 ^ 64) ∧
      IsUnsignedDecimal uid (fileInfo.st_uid % 2 ^ 32) ∧
      IsUnsignedDecimal gid (fileInfo.st_gid % 2 ^ 32) ∧
      type = type_label fileInfo.st_mode ∧
      permissions = format_permissions fileInfo.st_mode ∧
      size = format_size fileInfo.st_size human_readable ∧
      accessTime = format_time localtime fileInfo.st_atime human_readable ∧
      modificationTime = format_time localtime fileInfo.st_mtime human_readable ∧
      statusChangeTime = format_time localtime fileInfo.st_ctime human_readable ∧
      (∀ v ∈ [type, permissions, size, accessTime, modificationTime, statusChangeTime],
        ∀ c ∈ v.data, c ∈ plain_chars ∧ c ≠ '"' ∧ c ≠ '\\' ∧ 32 ≤ c.toNat) := by
  refine ⟨_, _, _, _, _, _, _, _, _, _, rfl, printf_lu_decimal _, printf_lu_decimal _,
    printf_lu_decimal _, printf_lu_decimal _, rfl, rfl, rfl, rfl, rfl, rfl, ?_⟩
  intro v hv c hc
  have hplain : IsPlain v := by
    simp only [List.mem_cons, List.mem_singleton, List.not_mem_nil, or_false] at hv
    rcases hv with h | h | h | h | h | h <;> subst h
    · exact IsPlain_type_label _
    · exact IsPlain_format_permissions _
    · exact IsPlain_format_size _ _
    · exact IsPlain_format_time _ _ _
    · exact IsPlain_format_time _ _ _
    · exact IsPlain_format_time _ _ _
  exact ⟨hplain c hc, plain_chars_safe c (hplain c hc)⟩

/-! ## JSON output -/

/-- Whatever follows, a text that begins with the opening brace, the key
`filePath` and the value `"a"` followed by the letter `b` is no JSON value. -/
theorem parse_value_quote_prefix (n : Nat) (rest : List Char) :
    parse_value (n + 2) ("\x7b\n  \"filePath\": \"a\"b".data ++ rest) = none := by
  simp [parse_value, skip_ws, parse_member, parse_string_body, parse_members]

theorem print_inode_info_json_quote_data (localtime : Int → Tm) (fileInfo : Stat)
    (human_readable : Int) :
    ∃ rest : List Char,
      (print_inode_info_json localtime "a\"b" fileInfo human_readable).data =
        "\x7b\n  \"filePath\": \"a\"b".data ++ ('"' :: rest) := by
  refine ⟨List.drop 21 (print_inode_info_json localtime "a\"b" fileInfo human_readable).data, ?_⟩
  simp only [print_inode_info_json, String.data_append, List.append_assoc]
  rfl

set_option maxRecDepth 1000000 in
/-- Claim C3, at the failing input: the path `a"b` (a legal file name) is
copied between the quotes unescaped, so for every metadata record and mode
the text emitted is not a well-formed JSON text; and for the path
`a", "filePath": "b` the text is a JSON object whose `filePath` value is `a`,
not the given path.  For the path `notes.txt` the text is a JSON object with
`filePath` equal to the path. -/
theorem print_inode_info_json_unescaped_path :
    (∀ (localtime : Int → Tm) (fileInfo : Stat) (human_readable : Int),
      json_parse (print_inode_info_json localtime "a\"b" fileInfo human_readable) = none ∧
      is_json_object (print_inode_info_json localtime "a\"b" fileInfo human_readable) = false) ∧
    json_filePath (print_inode_info_json sample_localtime "a\", \"filePath\": \"b"
      sample_file_stat 0) = some "a" ∧
    is_json_object (print_inode_info_json sample_localtime "notes.txt" sample_file_stat 0)
      = true ∧
    json_filePath (print_inode_info_json sample_localtime "notes.txt" sample_file_stat 0)
      = some "notes.txt" := by
  refine ⟨?_, by decide, by decide, by decide⟩
  intro localtime fileInfo human_readable
  have hnone : json_parse (print_inode_info_json localtime "a\"b" fileInfo human_readable)
      = none := by
    obtain ⟨rest, hd⟩ := print_inode_info_json_quote_data localtime fileInfo human_readable
    have hl : (print_inode_info_json localtime "a\"b" fileInfo human_readable).length + 1
        = (rest.length + 20) + 2 := by
      have h20 : "\x7b\n  \"filePath\": \"a\"b".data.length = 20 := by decide
      rw [String.length, hd, List.length_append, h20, List.length_cons]
      omega
    unfold json_parse
    rw [hl, hd, parse_value_quote_prefix]
  refine ⟨hnone, ?_⟩
  unfold is_json_object
  rw [hnone]

/-! ## Traversal -/

theorem concat_all_append (a b : List String) :
    concat_all (a ++ b) = concat_all a ++ concat_all b := by
  induction a with
  | nil => simp [concat_all]
  | cons x t ih => simp [concat_all, ih, String.append_assoc]

theorem World.after_nil (w : World) (localtime : Int → Tm) (json_output human_readable : Int) :
    w.after localtime json_output human_readable [] [] = w := by
  cases w
  simp [World.after, units, error_lines, concat_all]

theorem World.after_after (w : World) (localtime : Int → Tm) (json_output human_readable : Int)
    (v1 v2 : List (String × Stat)) (f1 f2 : List (String × String)) :
    (w.after localtime json_output human_readable v1 f1).after localtime json_output
      human_readable v2 f2 =
    w.after localtime json_output human_readable (v1 ++ v2) (f1 ++ f2) := by
  simp [World.after, units, error_lines, concat_all_append, String.append_assoc]

theorem World.printf_eq_after (w : World) (localtime : Int → Tm)
    (json_output human_readable : Int) (p : String) (st : Stat) :
    w.printf (print_inode_info localtime json_output p st human_readable) =
      w.after localtime json_output human_readable [(p, st)] [] := by
  cases w
  simp [World.after, World.printf, units, error_lines, concat_all]

theorem World.eprintf_eq_after (w : World) (localtime : Int → Tm)
    (json_output human_readable : Int) (p e : String) :
    w.eprintf ("Error getting file info for " ++ p ++ ": " ++ e ++ "\n") =
      w.after localtime json_output human_readable [] [(p, e)] := by
  cases w
  simp [World.after, World.eprintf, units, error_lines, concat_all]

/-- The loop of `process_directory` over a described listing returns, having
rendered the visits in pre-order and reported the failures, as soon as the
recursion budget covers the depth of the listing. -/
theorem process_entries_describes (env : Env) (json_output human_readable recursive : Int) :
    ∀ (l : Listing) (fuel : Nat) (path : String) (w : World),
      l.Describes env child_path recursive path → l.depth ≤ fuel →
      process_entries env (process_directory env json_output human_readable recursive fuel)
        path json_output human_readable recursive l.names w =
      .returned (w.after env.localtime json_output human_readable
        (l.visits child_path path) (l.failures child_path path)) := by
  intro l
  induction l with
  | nil =>
    intro fuel path w _ _
    simp [Listing.names, process_entries, Listing.visits, Listing.failures, World.after_nil]
  | dot n rest ih =>
    intro fuel path w hd hf
    obtain ⟨hn, hrest⟩ := hd
    simp only [Listing.names, process_entries, if_pos hn, Listing.visits, Listing.failures]
    exact ih fuel path w hrest hf
  | unreadable n e rest ih =>
    intro fuel path w hd hf
    obtain ⟨hn, hs, hrest⟩ := hd
    simp only [Listing.names, process_entries, if_neg hn, hs, Listing.visits, Listing.failures]
    rw [World.eprintf_eq_after w env.localtime json_output human_readable,
      ih fuel path _ hrest hf, World.after_after]
    simp
  | leaf n st rest ih =>
    intro fuel path w hd hf
    obtain ⟨hn, hs, hnot, hrest⟩ := hd
    simp only [Listing.names, process_entries, if_neg hn, hs, if_neg hnot, Listing.visits,
      Listing.failures]
    rw [World.printf_eq_after, ih fuel path _ hrest hf, World.after_after]
    simp
  | dir n st children rest ihc ihr =>
    intro fuel path w hd hf
    obtain ⟨hn, hs, hrec, hdir, hopen, hch, hrest⟩ := hd
    simp only [Listing.depth] at hf
    obtain ⟨f, rfl⟩ : ∃ f, fuel = f + 1 := ⟨fuel - 1, by omega⟩
    have hfc : children.depth ≤ f := by omega
    have hfr : rest.depth ≤ f + 1 := by omega
    have hrecurse : process_directory env json_output human_readable recursive (f + 1)
        (child_path path n)
        (w.printf (print_inode_info env.localtime json_output (child_path path n) st
          human_readable)) =
        .returned ((w.after env.localtime json_output human_readable
          [(child_path path n, st)] []).after env.localtime json_output human_readable
          (children.visits child_path (child_path path n))
          (children.failures child_path (child_path path n))) := by
      rw [process_directory]
      simp only [hopen]
      rw [World.printf_eq_after, ihc f _ _ hch hfc]
    simp only [Listing.names, process_entries, if_neg hn, hs, if_pos (And.intro hrec hdir),
      Listing.visits, Listing.failures, hrecurse]
    rw [ihr (f + 1) path _ hrest hfr, World.after_after, World.after_after]
    simp

/-- The function `process_directory` on a directory that can be opened and a
described listing: it returns, with the visits rendered in pre-order on
standard output and one line per failed child on standard error. -/
theorem process_directory_describes (env : Env) (json_output human_readable recursive : Int)
    (l : Listing) (fuel : Nat) (path : String) (w : World)
    (hopen : env.opendir path = .ok l.names)
    (hd : l.Describes env child_path recursive path) (hf : l.depth < fuel) :
    process_directory env json_output human_readable recursive fuel path w =
      .returned (w.after env.localtime json_output human_readable
        (l.visits child_path path) (l.failures child_path path)) := by
  obtain ⟨f, rfl⟩ : ∃ f, fuel = f + 1 := ⟨fuel - 1, by omega⟩
  rw [process_directory]
  simp only [hopen]
  exact process_entries_describes env json_output human_readable recursive l f path w hd
    (by omega)

theorem child_path_short (directory_path d_name : String)
    (h : (join_path directory_path d_name).length ≤ 1023) :
    child_path directory_path d_name = join_path directory_path d_name := by
  unfold child_path
  have hd : (directory_path ++ "/" ++ d_name).data.length ≤ 1023 := h
  rw [List.take_of_length_le hd]
  rfl

theorem describes_short (env : Env) (recursive : Int) :
    ∀ (l : Listing) (path : String), l.Short path →
      l.Describes env join_path recursive path →
      l.Describes env child_path recursive path ∧
      l.visits child_path path = l.visits join_path path ∧
      l.failures child_path path = l.failures join_path path := by
  intro l
  induction l with
  | nil => intro path _ _; exact ⟨trivial, rfl, rfl⟩
  | dot n rest ih =>
    intro path hs hd
    obtain ⟨i1, i2, i3⟩ := ih path hs hd.2
    exact ⟨⟨hd.1, i1⟩, i2, i3⟩
  | unreadable n e rest ih =>
    intro path hs hd
    obtain ⟨i1, i2, i3⟩ := ih path hs.2 hd.2.2
    have hc := child_path_short path n hs.1
    refine ⟨⟨hd.1, by rw [hc]; exact hd.2.1, i1⟩, i2, ?_⟩
    simp only [Listing.failures, hc, i3]
  | leaf n st rest ih =>
    intro path hs hd
    obtain ⟨i1, i2, i3⟩ := ih path hs.2 hd.2.2.2
    have hc := child_path_short path n hs.1
    refine ⟨⟨hd.1, by rw [hc]; exact hd.2.1, hd.2.2.1, i1⟩, ?_, i3⟩
    simp only [Listing.visits, hc, i2]
  | dir n st children rest ihc ihr =>
    intro path hs hd
    obtain ⟨hn, hst, hrec, hdir, hopen, hch, hrest⟩ := hd
    obtain ⟨hlen, hsc, hsr⟩ := hs
    have hc := child_path_short path n hlen
    obtain ⟨c1, c2, c3⟩ := ihc (join_path path n) hsc hch
    obtain ⟨r1, r2, r3⟩ := ihr path hsr hrest
    refine ⟨⟨hn, by rw [hc]; exact hst, hrec, hdir, by rw [hc]; exact hopen,
      by rw [hc]; exact c1, r1⟩, ?_, ?_⟩
    · simp only [Listing.visits, hc, c2, r2]
    · simp only [Listing.failures, hc, c3, r3]

/-- What holds of the traversal of a directory tree: when every child path
fits the path buffer and the environment shows the listing `l` below `path`
(paths joined with `/`), `process_directory` returns, having rendered every
child with readable metadata exactly once, in depth-first pre-order, each
with the same options. -/
theorem process_directory_tree (env : Env) (json_output human_readable recursive : Int)
    (l : Listing) (fuel : Nat) (path : String) (w : World)
    (hopen : env.opendir path = .ok l.names)
    (hd : l.Describes env join_path recursive path) (hs : l.Short path)
    (hf : l.depth < fuel) :
    process_directory env json_output human_readable recursive fuel path w =
      .returned (w.after env.localtime json_output human_readable
        (l.visits join_path path) (l.failures join_path path)) := by
  obtain ⟨h1, h2, h3⟩ := describes_short env recursive l path hs hd
  rw [process_directory_describes env json_output human_readable recursive l fuel path w hopen
    h1 hf, h2, h3]

/-- Without `recursive` the loop never makes the recursive call: its result
is the same whatever that call would do. -/
theorem process_entries_flat (env : Env) (r1 r2 : String → World → Outcome)
    (path : String) (json_output human_readable : Int) :
    ∀ (entries : List String) (w : World),
      process_entries env r1 path json_output human_readable 0 entries w =
      process_entries env r2 path json_output human_readable 0 entries w := by
  intro entries
  induction entries with
  | nil => intro w; simp [process_entries]
  | cons n rest ih =>
    intro w
    simp only [process_entries]
    split_ifs with h
    · exact ih w
    · cases env.stat (child_path path n) with
      | error e => exact ih _
      | ok st =>
        have hne : ¬ ((0 : Int) ≠ 0 ∧ S_ISDIR st.st_mode = true) := fun h => h.1 rfl
        simp only [if_neg hne]
        exact ih _

/-- Without `recursive`, `process_directory` opens the given directory only:
its result is the same in every environment that agrees on that directory,
on `stat` and on `localtime`, whatever opening other directories gives. -/
theorem process_directory_flat_opens_one (env env2 : Env) (json_output human_readable : Int)
    (fuel : Nat) (path : String) (w : World)
    (hstat : env2.stat = env.stat) (htime : env2.localtime = env.localtime)
    (hopen : env2.opendir path = env.opendir path) :
    process_directory env2 json_output human_readable 0 (fuel + 1) path w =
      process_directory env json_output human_readable 0 (fuel + 1) path w := by
  have key : ∀ (r : String → World → Outcome) (entries : List String) (w1 : World),
      process_entries env2 r path json_output human_readable 0 entries w1 =
      process_entries env r path json_output human_readable 0 entries w1 := by
    intro r entries
    induction entries with
    | nil => intro w1; simp [process_entries]
    | cons n rest ih =>
      intro w1
      simp only [process_entries, hstat, htime]
      split_ifs with h
      · exact ih w1
      · cases env.stat (child_path path n) with
        | error e => exact ih _
        | ok st =>
          have hne : ¬ ((0 : Int) ≠ 0 ∧ S_ISDIR st.st_mode = true) := fun h => h.1 rfl
          simp only [if_neg hne]
          exact ih _
  rw [process_directory, process_directory, hopen]
  cases env.opendir path with
  | error e => rfl
  | ok entries =>
    simp only []
    rw [key, process_entries_flat env _
      (process_directory env json_output human_readable 0 fuel)]

/-- The non-recursive traversal of a directory whose children can all be
stat-ed and whose child paths fit the path buffer: one unit per listed entry
other than `.` and `..`, in listing order, with path
`directory_path + "/" + d_name`. -/
theorem process_directory_flat (env : Env) (json_output human_readable : Int) (fuel : Nat)
    (directory_path : String) (entries : List String) (stats : List Stat) (w : World)
    (hopen : env.opendir directory_path = .ok entries)
    (hstat : List.Forall₂ (fun n st => env.stat (join_path directory_path n) = .ok st)
      (entries.filter (fun n => ¬ (n = "." ∨ n = ".."))) stats)
    (hshort : ∀ n ∈ entries, (join_path directory_path n).length ≤ 1023) :
    process_directory env json_output human_readable 0 (fuel + 1) directory_path w =
      .returned
        { stdout := w.stdout ++ concat_all (List.zipWith
            (fun n st => print_inode_info env.localtime json_output (join_path directory_path n)
              st human_readable)
            (entries.filter (fun n => ¬ (n = "." ∨ n = ".."))) stats),
          stderr := w.stderr } := by
  rw [process_directory]
  simp only [hopen]
  clear hopen
  induction entries generalizing stats w with
  | nil =>
    cases w
    simp [process_entries, concat_all]
  | cons n rest ih =>
    simp only [process_entries]
    by_cases hn : n = "." ∨ n = ".."
    · have hfil : List.filter (fun n => decide ¬ (n = "." ∨ n = "..")) (n :: rest) =
          List.filter (fun n => decide ¬ (n = "." ∨ n = "..")) rest := by
        rw [List.filter_cons_of_neg]
        simp only [decide_not, Bool.not_eq_true', decide_eq_false_iff_not, not_not]
        exact hn
      rw [if_pos hn]
      rw [hfil] at hstat ⊢
      exact ih stats w hstat (fun m hm => hshort m (List.mem_cons_of_mem _ hm))
    · have hfil : List.filter (fun n => decide ¬ (n = "." ∨ n = "..")) (n :: rest) =
          n :: List.filter (fun n => decide ¬ (n = "." ∨ n = "..")) rest := by
        rw [List.filter_cons_of_pos]
        simpa using hn
      rw [if_neg hn]
      rw [hfil] at hstat ⊢
      cases hstat with
      | cons h1 h2 =>
        rename_i st stats1
        rw [child_path_short directory_path n (hshort n (List.mem_cons_self _ _)), h1]
        have hne : ¬ ((0 : Int) ≠ 0 ∧ S_ISDIR st.st_mode = true) := fun h => h.1 rfl
        simp only [if_neg hne]
        rw [ih stats1 _ h2 (fun m hm => hshort m (List.mem_cons_of_mem _ hm))]
        simp [World.printf, concat_all, String.append_assoc]


/-! ## The claims on `process_directory` -/

set_option maxRecDepth 1000000 in
/-- Claim C4, at the failing input: the directory `dir_1003` (1003 bytes)
lists one entry, `report-2024-quarterly.txt`, which can be stat-ed; the path
`snprintf` builds in `char path[1024]` is cut to 1023 bytes, `stat` is asked
about the cut path, and the non-recursive traversal emits no unit at all
(only an error line for a path that is not in the directory).  On the
directory of the spec's scenario (one regular file of 2048 bytes and one
subdirectory) the traversal emits exactly the two units, the file's size
field being `2.00 KB` in human-readable mode and `2048` in raw mode. -/
theorem process_directory_truncated_child :
    env_long.opendir dir_1003 = .ok [".", "..", "report-2024-quarterly.txt"] ∧
    env_long.stat (join_path dir_1003 "report-2024-quarterly.txt") = .ok sample_file_stat ∧
    child_path dir_1003 "report-2024-quarterly.txt" = dir_1003 ++ "/report-2024-quarter" ∧
    process_directory env_long 1 0 0 1 dir_1003 w0 =
      .returned ⟨"", "Error getting file info for " ++ dir_1003 ++
        "/report-2024-quarter: No such file or directory\n"⟩ ∧
    process_directory env_scenario 1 1 0 1 "d" w0 =
      .returned ⟨print_inode_info_json sample_localtime "d/notes.txt" sample_file_stat 1 ++
        print_inode_info_json sample_localtime "d/sub" sample_dir_stat 1, ""⟩ ∧
    process_directory env_scenario 1 0 0 1 "d" w0 =
      .returned ⟨print_inode_info_json sample_localtime "d/notes.txt" sample_file_stat 0 ++
        print_inode_info_json sample_localtime "d/sub" sample_dir_stat 0, ""⟩ ∧
    print_inode_info_json sample_localtime "d/notes.txt" sample_file_stat 1 =
      "\x7b\n  \"filePath\": \"d/notes.txt\",\n  \"inode\": \x7b\n    \"number\": 1311,\n" ++
      "    \"type\": \"regular file\",\n    \"permissions\": \"-rw-r--r--\",\n" ++
      "    \"linkCount\": 1,\n    \"uid\": 1000,\n    \"gid\": 1000,\n" ++
      "    \"size\": \"2.00 KB\",\n    \"accessTime\": \"1970-01-01 00:00:00\",\n" ++
      "    \"modificationTime\": \"1970-01-01 00:00:00\",\n" ++
      "    \"statusChangeTime\": \"1970-01-01 00:00:00\"\n  \x7d\n\x7d\n" ∧
    print_inode_info_json sample_localtime "d/notes.txt" sample_file_stat 0 =
      "\x7b\n  \"filePath\": \"d/notes.txt\",\n  \"inode\": \x7b\n    \"number\": 1311,\n" ++
      "    \"type\": \"regular file\",\n    \"permissions\": \"-rw-r--r--\",\n" ++
      "    \"linkCount\": 1,\n    \"uid\": 1000,\n    \"gid\": 1000,\n" ++
      "    \"size\": \"2048\",\n    \"accessTime\": \"1700000000\",\n" ++
      "    \"modificationTime\": \"1700000000\",\n" ++
      "    \"statusChangeTime\": \"1700000000\"\n  \x7d\n\x7d\n" := by
  refine ⟨rfl, rfl, by decide, by decide, by decide, by decide, by decide, by decide⟩

set_option maxRecDepth 1000000 in
theorem env_full_facts :
    child_path dir_1023 "x" = dir_1023 ∧
    env_full.opendir dir_1023 = .ok [".", "..", "x"] ∧
    env_full.stat dir_1023 = .ok sample_dir_stat ∧
    S_ISDIR sample_dir_stat.st_mode = true := by
  refine ⟨by decide, rfl, rfl, by decide⟩

/-- A directory whose only child gets the directory's own path: the
recursive traversal renders the directory and enters it again, without end. -/
theorem process_directory_self_child (env : Env) (json_output human_readable : Int)
    (D : String) (st : Stat)
    (hc : child_path D "x" = D) (ho : env.opendir D = .ok [".", "..", "x"])
    (hs : env.stat D = .ok st) (hd : S_ISDIR st.st_mode = true) :
    ∀ (fuel : Nat) (w : World),
      process_directory env json_output human_readable 1 fuel D w = .out_of_fuel := by
  intro fuel
  induction fuel with
  | zero => intro w; rfl
  | succ f ih =>
    intro w
    have h1 : ¬ (("x" : String) = "." ∨ ("x" : String) = "..") := by decide
    have h2 : (1 : Int) ≠ 0 ∧ S_ISDIR st.st_mode = true := ⟨by decide, hd⟩
    rw [process_directory]
    simp only [ho, process_entries, true_or, or_true, if_true, if_neg h1, hc, hs, if_pos h2, ih]

/-- In `env_full` the recursive traversal of `dir_1023` never returns: the
path of the child `x` is cut back to the directory itself, which is rendered
and entered again. -/
theorem process_directory_env_full (json_output human_readable : Int) (fuel : Nat)
    (w : World) :
    process_directory env_full json_output human_readable 1 fuel dir_1023 w = .out_of_fuel :=
  process_directory_self_child env_full json_output human_readable dir_1023 sample_dir_stat
    env_full_facts.1 env_full_facts.2.1 env_full_facts.2.2.1 env_full_facts.2.2.2 fuel w

set_option maxRecDepth 1000000 in
/-- Claim C5, at the failing inputs.  In the tree `env_deep` (directory
`dir_1003`, its subdirectory `archive-of-old-reports-2019`, the file `f.txt`
in it) the recursive traversal renders no descendant: the path of the
subdirectory is cut to 1023 bytes and `stat` of the cut path fails.  In the
tree `env_full` (directory `dir_1023` holding the file `x`) the path built for
`x` is `dir_1023` itself, and the recursive traversal never returns, for any
options and any recursion budget. -/
theorem process_directory_long_paths :
    env_deep.stat (join_path dir_1003 "archive-of-old-reports-2019") = .ok sample_dir_stat ∧
    env_deep.opendir (join_path dir_1003 "archive-of-old-reports-2019") =
      .ok [".", "..", "f.txt"] ∧
    child_path dir_1003 "archive-of-old-reports-2019" = dir_1003 ++ "/archive-of-old-repo" ∧
    process_directory env_deep 1 0 1 5 dir_1003 w0 =
      .returned ⟨"", "Error getting file info for " ++ dir_1003 ++
        "/archive-of-old-repo: No such file or directory\n"⟩ ∧
    child_path dir_1023 "x" = dir_1023 ∧
    (∀ (json_output human_readable : Int) (fuel : Nat) (w : World),
      process_directory env_full json_output human_readable 1 fuel dir_1023 w =
        .out_of_fuel) := by
  refine ⟨rfl, rfl, by decide, by decide, env_full_facts.1, process_directory_env_full⟩

set_option maxRecDepth 1000000 in
/-- Claim C7, at the failing input: `d/link` is a symbolic link to a
directory (`lstat` reports a link), but `process_directory` classifies it with
`stat`, which follows the link: the entry is rendered as a directory and the
recursive traversal enters it and renders `d/link/f.txt`. -/
theorem symlink_to_directory_entered :
    env_link.lstat "d/link" = .ok sample_link_stat ∧
    S_ISLNK sample_link_stat.st_mode = true ∧
    type_label sample_link_stat.st_mode = "symbolic link" ∧
    env_link.stat "d/link" = .ok sample_dir_stat ∧
    type_label sample_dir_stat.st_mode = "directory" ∧
    process_directory env_link 1 0 1 3 "d" w0 =
      .returned ⟨print_inode_info_json sample_localtime "d/link" sample_dir_stat 0 ++
        print_inode_info_json sample_localtime "d/link/f.txt" sample_file_stat 0, ""⟩ := by
  refine ⟨rfl, by decide, by decide, rfl, by decide, by decide⟩

/-- For every record and mode the text printed for the path `a"b` is no JSON
text. -/
theorem json_parse_quote_path (localtime : Int → Tm) (fileInfo : Stat) (human_readable : Int) :
    json_parse (print_inode_info_json localtime "a\"b" fileInfo human_readable) = none := by
  obtain ⟨rest, hd⟩ := print_inode_info_json_quote_data localtime fileInfo human_readable
  have hl : (print_inode_info_json localtime "a\"b" fileInfo human_readable).length + 1
      = (rest.length + 20) + 2 := by
    have h20 : "\x7b\n  \"filePath\": \"a\"b".data.length = 20 := by decide
    rw [String.length, hd, List.length_append, h20, List.length_cons]
    omega
  unfold json_parse
  rw [hl, hd, parse_value_quote_prefix]

set_option maxRecDepth 1000000 in
/-- Claim C8, at the failing inputs: `file_path` is copied between the
quotes unescaped (the defect of claim C3), so the keys of the output are not
fixed by the code.  For the path `a", "number": "7` the text is a JSON
object whose top-level keys are `filePath`, `number`, `inode`, with `number` a
quoted string; for the path `a"b` the text is no JSON text at all, for every
record and mode.  For the path `notes.txt` the keys are `filePath` (a string)
and `inode` (an object) with `number`, `type`, `permissions`, `linkCount`,
`uid`, `gid`, `size`, `accessTime`, `modificationTime`, `statusChangeTime` in
that order, `number`, `linkCount`, `uid`, `gid` being numbers and the others
strings, in raw and in human-readable mode. -/
theorem print_inode_info_json_keys_injected :
    (json_parse (print_inode_info_json sample_localtime "a\", \"number\": \"7"
        sample_file_stat 0)).bind json_shape =
      some [("filePath", "string"), ("number", "string"), ("inode", "object")] ∧
    (∀ (localtime : Int → Tm) (fileInfo : Stat) (human_readable : Int),
      (json_parse (print_inode_info_json localtime "a\"b" fileInfo human_readable)).bind
        json_shape = none) ∧
    (json_parse (print_inode_info_json sample_localtime "notes.txt" sample_file_stat 0)).bind
        json_shape = some [("filePath", "string"), ("inode", "object")] ∧
    ((json_parse (print_inode_info_json sample_localtime "notes.txt" sample_file_stat 0)).bind
        (json_member "inode")).bind json_shape =
      some [("number", "number"), ("type", "string"), ("permissions", "string"),
        ("linkCount", "number"), ("uid", "number"), ("gid", "number"), ("size", "string"),
        ("accessTime", "string"), ("modificationTime", "string"),
        ("statusChangeTime", "string")] ∧
    ((json_parse (print_inode_info_json sample_localtime "notes.txt" sample_file_stat 1)).bind
        (json_member "inode")).bind json_shape =
      some [("number", "number"), ("type", "string"), ("permissions", "string"),
        ("linkCount", "number"), ("uid", "number"), ("gid", "number"), ("size", "string"),
        ("accessTime", "string"), ("modificationTime", "string"),
        ("statusChangeTime", "string")] := by
  refine ⟨by decide, ?_, by decide, by decide, by decide⟩
  intro localtime fileInfo human_readable
  rw [json_parse_quote_path]
  rfl

end Inspect
